import Mathlib

/-!
Verification development for the aipal orchestration engine.

The JavaScript sources are shallowly embedded: mutable `Map`s become
association lists, JS numbers become `Int`/`Nat`/`Rat` as appropriate,
async calls that can reject become `Except`, and injected callbacks
(`execLocal`, `buildBootstrapContext`, ...) become function parameters,
mirroring the dependency-injection style of the source
(`createAgentRunner(options)`, `createTokenTracker({...})`, ...).
-/

namespace Aipal

/-! ### Association-list maps (embedding of JS `Map` / plain objects) -/

def alookup {α : Type} (m : List (String × α)) (k : String) : Option α :=
  match m with
  | [] => none
  | (k1, v) :: rest => if k1 = k then some v else alookup rest k

def aerase {α : Type} (m : List (String × α)) (k : String) : List (String × α) :=
  match m with
  | [] => []
  | (k1, v) :: rest => if k1 = k then aerase rest k else (k1, v) :: aerase rest k

def ainsert {α : Type} (m : List (String × α)) (k : String) (v : α) :
    List (String × α) :=
  (k, v) :: aerase m k

def amem {α : Type} (m : List (String × α)) (k : String) : Bool :=
  (alookup m k).isSome

/-! ### JS string primitives

JS `String.prototype.trim` strips leading/trailing whitespace; we model the
ASCII whitespace characters (the sources only ever meet ASCII whitespace).
JS `.length` and `.slice` count UTF-16 units; we count characters, which
agrees on the ASCII data the claims exercise. -/

def isJsWs (c : Char) : Bool :=
  c = ' ' || c = Char.ofNat 9 || c = Char.ofNat 10 || c = Char.ofNat 13 ||
  c = Char.ofNat 11 || c = Char.ofNat 12

def jsTrimChars (l : List Char) : List Char :=
  ((l.dropWhile isJsWs).reverse.dropWhile isJsWs).reverse

def jsTrim (s : String) : String :=
  ⟨jsTrimChars s.data⟩

def jsLen (s : String) : Nat :=
  s.data.length

def jsTake (s : String) (n : Nat) : String :=
  ⟨s.data.take n⟩

def listContainsSub (pat l : List Char) : Bool :=
  match l with
  | [] => pat.isEmpty
  | _ :: rest => pat.isPrefixOf l || listContainsSub pat rest

/-- JS `String.prototype.includes`. -/
def jsIncludes (s pat : String) : Bool :=
  listContainsSub pat.data s.data

def toLowerStr (s : String) : String :=
  ⟨s.data.map Char.toLower⟩

/-- Written from the specification's words (not from the source), used only
to state the retrieval-gate claim as the specification phrases it: the number
of non-whitespace characters of the prompt. -/
def nonWhitespaceCount (s : String) : Nat :=
  (s.data.filter (fun c => !(isJsWs c))).length

/-! ### Token tracker (src/token-tracker.js)

`createTokenTracker({ budgetDaily, agentQuotas, sendAlert, persistUsage,
loadUsage })`.  `persistUsage`/`loadUsage` only do fail-soft I/O and never
change the in-memory accounting, so they are not part of the state
transition.  `todayDateString()` is a clock read and becomes the `today`
argument of each call. -/

def THRESHOLDS : List Int := [25, 50, 75, 85, 95]

structure Bucket where
  input : Int
  output : Int
  messages : Nat
deriving Repr, DecidableEq

def Bucket.zero : Bucket := ⟨0, 0, 0⟩

structure TrackerState where
  date : String
  chats : List (String × Bucket)
  sources : List (String × Bucket)
  agents : List (String × Bucket)
  alertsSent : List Int
  totalCostUsd : Rat
deriving Repr, DecidableEq

def TrackerState.init (d : String) : TrackerState :=
  ⟨d, [], [], [], [], 0⟩

structure TrackerCfg where
  budgetDaily : Int
  hasSendAlert : Bool
deriving Repr, DecidableEq

structure TrackArgs where
  chatId : Option String
  inputTokens : Int
  outputTokens : Int
  source : Option String
  agentId : Option String
  costUsd : Option Rat
deriving Repr, DecidableEq

/-- Embeds `String(chatId || 'unknown')`: empty / absent chat ids collapse to
`"unknown"`. -/
def chatKey (chatId : Option String) : String :=
  match chatId with
  | some c => if c = "" then "unknown" else c
  | none => "unknown"

/-- Embeds `ensureToday()`: discard the whole state when the date rolled over. -/
def ensureToday (today : String) (st : TrackerState) : TrackerState :=
  if st.date = today then st else TrackerState.init today

/-- The per-bucket update: add tokens, and bump `messages` only when
`inputTokens > 0`. -/
def bumpBucket (m : List (String × Bucket)) (k : String) (inp outp : Int) :
    List (String × Bucket) :=
  let b := (alookup m k).getD Bucket.zero
  ainsert m k
    { input := b.input + inp
      output := b.output + outp
      messages := b.messages + (if 0 < inp then 1 else 0) }

def getTotalTokens (st : TrackerState) : Int :=
  st.chats.foldl (fun acc kv => acc + kv.2.input + kv.2.output) 0

/-- The threshold loop of `trackUsage`: walk `THRESHOLDS`, and for each
threshold with `pct >= threshold` not yet in `alertsSent`, push it and emit
an alert.  Returns the updated `alertsSent` and the list of thresholds
alerted by this call, in loop order. -/
def alertFold (pct : Rat) (sent : List Int) (ts : List Int) :
    List Int × List Int :=
  match ts with
  | [] => (sent, [])
  | t :: rest =>
    if t ≤ pct ∧ t ∉ sent then
      let r := alertFold pct (sent ++ [t]) rest
      (r.1, t :: r.2)
    else
      alertFold pct sent rest

/-- The bucket-update stage of `trackUsage` (everything before the
budget-alert block): roll the date over, bump the per-chat, per-source and
per-agent buckets, and accumulate cost. -/
def trackUsageBuckets (today : String) (st : TrackerState) (a : TrackArgs) :
    TrackerState :=
  let st := ensureToday today st
  let key := chatKey a.chatId
  let chats := bumpBucket st.chats key a.inputTokens a.outputTokens
  let sources :=
    match a.source with
    | some s => if s = "" then st.sources else bumpBucket st.sources s a.inputTokens a.outputTokens
    | none => st.sources
  let agents :=
    match a.agentId with
    | some s => if s = "" then st.agents else bumpBucket st.agents s a.inputTokens a.outputTokens
    | none => st.agents
  let totalCostUsd :=
    match a.costUsd with
    | some c => if 0 < c then st.totalCostUsd + c else st.totalCostUsd
    | none => st.totalCostUsd
  { st with chats, sources, agents, totalCostUsd }

/-- Embeds `trackUsage({chatId, topicId, inputTokens, outputTokens, source, costUsd,
agentId})`, returning the new state and the thresholds alerted during the
call. -/
def trackUsage (cfg : TrackerCfg) (today : String) (st : TrackerState)
    (a : TrackArgs) : TrackerState × List Int :=
  let st := trackUsageBuckets today st a
  if 0 < cfg.budgetDaily ∧ cfg.hasSendAlert then
    let totalTokens := getTotalTokens st
    let pct : Rat := (totalTokens : Rat) / (cfg.budgetDaily : Rat) * 100
    let r := alertFold pct st.alertsSent THRESHOLDS
    ({ st with alertsSent := r.1 }, r.2)
  else
    (st, [])

/-- A sequence of `trackUsage` calls; each call carries the value of
`todayDateString()` at call time.  Emitted alerts are tagged with the day
they fired for. -/
def runTrack (cfg : TrackerCfg) (st : TrackerState)
    (calls : List (String × TrackArgs)) :
    TrackerState × List (Int × String) :=
  match calls with
  | [] => (st, [])
  | (d, a) :: rest =>
    let r1 := trackUsage cfg d st a
    let r2 := runTrack cfg r1.1 rest
    (r2.1, r1.2.map (fun t => (t, d)) ++ r2.2)

def chatMessages (st : TrackerState) (k : String) : Nat :=
  ((alookup st.chats k).getD Bucket.zero).messages

/-! ### Cron trigger handler (src/services/cron-handler.js)

`createCronHandler(options)` injects the collaborators; each awaited call can
reject, so every collaborator outcome is an `Except` input.  The observable
behaviour relevant to the specification is the sequence of side effects the
handler performs, recorded as a `CronEffect` trace. -/

inductive CronEffect where
  | sendChatAction
  | captureUser
  | runAgent
  | captureAssistant
  | silentSkip (token : String)
  | sendResponse
  | sendErrorMessage
deriving Repr, DecidableEq

structure CronDeps where
  /-- `cronBudgetGatePct` (env `CRON_BUDGET_GATE_PCT`). -/
  cronBudgetGatePct : Rat
  /-- `getBudgetPct` is an optional collaborator (`&& getBudgetPct` truthiness
  check); when present it returns `null` (`none`) or a percentage. -/
  getBudgetPct : Option (Option Rat)
  /-- Outcome of `bot.telegram.sendChatAction(...)`. -/
  sendChatActionResult : Except String Unit
  /-- Outcome of the user-side `captureMemoryEvent(...)`. -/
  captureUserResult : Except String Unit
  /-- Outcome of `runAgentForChat(...)`: the response text, or a rejection. -/
  runAgentResult : Except String String
  /-- Outcome of the assistant-side `captureMemoryEvent(...)`. -/
  captureAssistantResult : Except String Unit
  /-- Outcome of `sendResponseToChat(...)`. -/
  sendResponseResult : Except String Unit

def cronSilentTokens : List String := ["HEARTBEAT_OK", "CURATION_EMPTY"]

/-- The `catch` branch: log, then best-effort send of the failure message. -/
def cronCatch (effects : List CronEffect) : List CronEffect × Bool :=
  (effects ++ [CronEffect.sendErrorMessage], false)

/-- Embeds `handleCronTrigger(chatId, prompt, triggerOptions)`.  Returns the effect
trace and whether the run was skipped by the budget gate.  `jobId` bookkeeping
(`runningJobs`, `onOutput` log capture) only feeds `/cron logs` and is not
part of the gate behaviour. -/
def handleCronTrigger (deps : CronDeps) : List CronEffect × Bool :=
  let gated : Bool :=
    decide (0 < deps.cronBudgetGatePct) &&
    match deps.getBudgetPct with
    | some (some pct) => decide (deps.cronBudgetGatePct ≤ pct)
    | _ => false
  if gated then
    ([], true)
  else
    match deps.sendChatActionResult with
    | .error _ => cronCatch [CronEffect.sendChatAction]
    | .ok _ =>
      match deps.captureUserResult with
      | .error _ => cronCatch [CronEffect.sendChatAction, CronEffect.captureUser]
      | .ok _ =>
        let pre := [CronEffect.sendChatAction, CronEffect.captureUser]
        match deps.runAgentResult with
        | .error _ => cronCatch (pre ++ [CronEffect.runAgent])
        | .ok response =>
          let pre := pre ++ [CronEffect.runAgent]
          match deps.captureAssistantResult with
          | .error _ => cronCatch (pre ++ [CronEffect.captureAssistant])
          | .ok _ =>
            let pre := pre ++ [CronEffect.captureAssistant]
            match cronSilentTokens.find? (fun t => jsIncludes response t) with
            | some tok => (pre ++ [CronEffect.silentSkip tok], false)
            | none =>
              match deps.sendResponseResult with
              | .error _ => cronCatch (pre ++ [CronEffect.sendResponse])
              | .ok _ => (pre ++ [CronEffect.sendResponse], false)

/-! ### Shell quoting (src/agent.js `shellQuote`)

`shellQuote(value)` replaces every single quote by the four characters
quote-backslash-quote-quote and wraps the result in single quotes.  The
round-trip claim is settled against a POSIX word evaluator: single quotes
make everything literal up to the next single quote; outside quotes a
backslash escapes the next character; double quotes make everything literal
except backslash before one of dollar, backquote, double quote, backslash.
(Parameter/command expansion is not modelled: a quoted word never triggers
it.) -/

def squoteC : Char := Char.ofNat 39
def dquoteC : Char := Char.ofNat 34
def bslashC : Char := Char.ofNat 92
def dollarC : Char := Char.ofNat 36
def bquoteC : Char := Char.ofNat 96

/-- Embeds `value.replace` of every single quote by quote-backslash-quote-quote,
on the character list. -/
def shellQuoteBody (l : List Char) : List Char :=
  match l with
  | [] => []
  | c :: rest =>
    if c = squoteC then squoteC :: bslashC :: squoteC :: squoteC :: shellQuoteBody rest
    else c :: shellQuoteBody rest

def shellQuote (s : String) : String :=
  ⟨squoteC :: (shellQuoteBody s.data ++ [squoteC])⟩

mutual

/-- POSIX word evaluation, outside any quotes. -/
def unqOutside : List Char → Option (List Char)
  | [] => some []
  | c :: rest =>
    if c = squoteC then unqSingle rest
    else if c = dquoteC then unqDouble rest
    else if c = bslashC then
      match rest with
      | [] => none
      | d :: ds => (unqOutside ds).map (fun r => d :: r)
    else (unqOutside rest).map (fun r => c :: r)

/-- POSIX word evaluation inside single quotes (everything literal). -/
def unqSingle : List Char → Option (List Char)
  | [] => none
  | c :: rest =>
    if c = squoteC then unqOutside rest
    else (unqSingle rest).map (fun r => c :: r)

/-- POSIX word evaluation inside double quotes. -/
def unqDouble : List Char → Option (List Char)
  | [] => none
  | c :: rest =>
    if c = dquoteC then unqOutside rest
    else if c = bslashC then
      match rest with
      | [] => none
      | d :: ds =>
        if d = dollarC ∨ d = bquoteC ∨ d = dquoteC ∨ d = bslashC then
          (unqDouble ds).map (fun r => d :: r)
        else
          (unqDouble ds).map (fun r => c :: d :: r)
    else (unqDouble rest).map (fun r => c :: r)

end

/-- One level of POSIX command-string evaluation of a single word. -/
def shellEval (s : String) : Option String :=
  (unqOutside s.data).map (fun l => ⟨l⟩)

/-! ### A model of `JSON.parse`

`parseCodexJsonOutput` feeds growing line buffers to `JSON.parse` and reacts
to the first prefix that parses as a complete JSON document, so the embedding
needs an executable JSON parser.  Values are modelled exactly (numbers as
rationals); `\uXXXX` escapes become the corresponding code point. -/

inductive Json where
  | null
  | bool (b : Bool)
  | num (q : Rat)
  | str (s : String)
  | arr (elems : List Json)
  | obj (fields : List (String × Json))
deriving Repr

def braceO : Char := Char.ofNat 123
def braceC : Char := Char.ofNat 125

def jsonWs (c : Char) : Bool :=
  c = ' ' || c = Char.ofNat 9 || c = Char.ofNat 10 || c = Char.ofNat 13

def skipWs (l : List Char) : List Char := l.dropWhile jsonWs

def hexVal (c : Char) : Option Nat :=
  if '0' ≤ c ∧ c ≤ '9' then some (c.toNat - 48)
  else if 'a' ≤ c ∧ c ≤ 'f' then some (c.toNat - 87)
  else if 'A' ≤ c ∧ c ≤ 'F' then some (c.toNat - 55)
  else none

/-- JSON string body, after the opening double quote. -/
def parseJStrBody (fuel : Nat) (l : List Char) : Option (List Char × List Char) :=
  match fuel with
  | 0 => none
  | fuel + 1 =>
    match l with
    | [] => none
    | c :: rest =>
      if c = dquoteC then some ([], rest)
      else if c = bslashC then
        match rest with
        | [] => none
        | e :: rest2 =>
          let esc : Option (Char × List Char) :=
            if e = dquoteC then some (dquoteC, rest2)
            else if e = bslashC then some (bslashC, rest2)
            else if e = '/' then some ('/', rest2)
            else if e = 'b' then some (Char.ofNat 8, rest2)
            else if e = 'f' then some (Char.ofNat 12, rest2)
            else if e = 'n' then some (Char.ofNat 10, rest2)
            else if e = 'r' then some (Char.ofNat 13, rest2)
            else if e = 't' then some (Char.ofNat 9, rest2)
            else if e = 'u' then
              match rest2 with
              | h1 :: h2 :: h3 :: h4 :: rest3 =>
                match hexVal h1, hexVal h2, hexVal h3, hexVal h4 with
                | some a, some b, some c2, some d =>
                  some (Char.ofNat (((a * 16 + b) * 16 + c2) * 16 + d), rest3)
                | _, _, _, _ => none
              | _ => none
            else none
          match esc with
          | none => none
          | some (ch, rest3) =>
            (parseJStrBody fuel rest3).map (fun r => (ch :: r.1, r.2))
      else if c.toNat < 32 then none
      else (parseJStrBody fuel rest).map (fun r => (c :: r.1, r.2))

def digitsToNat (l : List Char) : Nat :=
  l.foldl (fun acc c => acc * 10 + (c.toNat - 48)) 0

/-- JSON number (strict grammar: no leading zeros, mandatory fraction and
exponent digits). -/
def parseJNum (l : List Char) : Option (Rat × List Char) :=
  let (neg, l1) :=
    match l with
    | c :: rest => if c = '-' then (true, rest) else (false, l)
    | [] => (false, l)
  let intDigits := l1.takeWhile Char.isDigit
  let afterInt := l1.dropWhile Char.isDigit
  if intDigits.isEmpty then none
  else if intDigits.length > 1 ∧ intDigits.headI = '0' then none
  else
    let (fracDigits, afterFrac) :=
      match afterInt with
      | c :: rest =>
        if c = '.' then (rest.takeWhile Char.isDigit, rest.dropWhile Char.isDigit)
        else ([], afterInt)
      | [] => ([], afterInt)
    let fracPresent : Bool :=
      match afterInt with
      | c :: _ => c = '.'
      | [] => false
    if fracPresent ∧ fracDigits.isEmpty then none
    else
      let r4 : Bool × Bool × List Char × List Char :=
        match afterFrac with
        | c :: rest1 =>
          if c = 'e' ∨ c = 'E' then
            let r2 : Bool × List Char :=
              match rest1 with
              | d :: rest2a =>
                if d = '-' then (true, rest2a)
                else if d = '+' then (false, rest2a)
                else (false, rest1)
              | [] => (false, rest1)
            let ds := r2.2.takeWhile Char.isDigit
            (!ds.isEmpty, r2.1, ds, r2.2.dropWhile Char.isDigit)
          else (true, false, ([] : List Char), afterFrac)
        | [] => (true, false, ([] : List Char), afterFrac)
      let expOk := r4.1
      let expNeg := r4.2.1
      let expDigits := r4.2.2.1
      let rest := r4.2.2.2
      if !expOk then none
      else
        let mantissa : Rat :=
          (digitsToNat intDigits : Rat) +
            (digitsToNat fracDigits : Rat) / ((10 : Rat) ^ fracDigits.length)
        let scaled : Rat :=
          if expNeg then mantissa / ((10 : Rat) ^ digitsToNat expDigits)
          else mantissa * ((10 : Rat) ^ digitsToNat expDigits)
        some ((if neg then -scaled else scaled), rest)

mutual

def parseJValue (fuel : Nat) (l : List Char) : Option (Json × List Char) :=
  match fuel with
  | 0 => none
  | fuel + 1 =>
    match skipWs l with
    | [] => none
    | c :: rest =>
      if c = dquoteC then
        (parseJStrBody (rest.length + 1) rest).map (fun r => (Json.str ⟨r.1⟩, r.2))
      else if c = braceO then
        match skipWs rest with
        | d :: rest2 =>
          if d = braceC then some (Json.obj [], rest2)
          else parseJMembers fuel (skipWs rest) []
        | [] => none
      else if c = '[' then
        match skipWs rest with
        | d :: rest2 =>
          if d = ']' then some (Json.arr [], rest2)
          else parseJElems fuel (skipWs rest) []
        | [] => none
      else if "true".data.isPrefixOf (c :: rest) then
        some (Json.bool true, (c :: rest).drop 4)
      else if "false".data.isPrefixOf (c :: rest) then
        some (Json.bool false, (c :: rest).drop 5)
      else if "null".data.isPrefixOf (c :: rest) then
        some (Json.null, (c :: rest).drop 4)
      else
        (parseJNum (c :: rest)).map (fun r => (Json.num r.1, r.2))

/-- Object members, positioned at the start of a key. -/
def parseJMembers (fuel : Nat) (l : List Char) (acc : List (String × Json)) :
    Option (Json × List Char) :=
  match fuel with
  | 0 => none
  | fuel + 1 =>
    match skipWs l with
    | c :: rest =>
      if c = dquoteC then
        match parseJStrBody (rest.length + 1) rest with
        | none => none
        | some (key, rest2) =>
          match skipWs rest2 with
          | d :: rest3 =>
            if d = ':' then
              match parseJValue fuel rest3 with
              | none => none
              | some (v, rest4) =>
                match skipWs rest4 with
                | e :: rest5 =>
                  if e = ',' then parseJMembers fuel rest5 (acc ++ [(⟨key⟩, v)])
                  else if e = braceC then some (Json.obj (acc ++ [(⟨key⟩, v)]), rest5)
                  else none
                | [] => none
            else none
          | [] => none
      else none
    | [] => none

/-- Array elements, positioned at the start of a value. -/
def parseJElems (fuel : Nat) (l : List Char) (acc : List Json) :
    Option (Json × List Char) :=
  match fuel with
  | 0 => none
  | fuel + 1 =>
    match parseJValue fuel l with
    | none => none
    | some (v, rest) =>
      match skipWs rest with
      | e :: rest2 =>
        if e = ',' then parseJElems fuel rest2 (acc ++ [v])
        else if e = ']' then some (Json.arr (acc ++ [v]), rest2)
        else none
      | [] => none

end

/-- Embeds `JSON.parse`: a single document with nothing but whitespace around it. -/
def jsonParse (s : String) : Option Json :=
  match parseJValue (s.data.length + 1) s.data with
  | some (v, rest) => if (skipWs rest).isEmpty then some v else none
  | none => none

/-- JS property read with duplicate keys resolved to the last occurrence. -/
def Json.getField (j : Json) (k : String) : Option Json :=
  match j with
  | .obj fields => fields.foldl (fun acc kv => if kv.1 = k then some kv.2 else acc) none
  | _ => none

def Json.asStr (j : Json) : Option String :=
  match j with
  | .str s => some s
  | _ => none

/-! ### Codex line-delimited JSON stream parser (src/agent.js
`parseCodexJsonOutput`, lines 39-75) -/

structure ParsedOutput where
  text : String
  threadId : Option String
  sawJson : Bool
deriving Repr, DecidableEq

/-- Embeds `output.split` on the regex of a newline optionally preceded by a
carriage return; a lone carriage return stays inside its line. -/
def splitLinesAux : List Char → List Char → List String
  | [], cur => [⟨cur.reverse⟩]
  | [c], cur =>
    if c = Char.ofNat 10 then [⟨cur.reverse⟩, ""]
    else [⟨(c :: cur).reverse⟩]
  | c :: d :: rest, cur =>
    if c = Char.ofNat 10 then ⟨cur.reverse⟩ :: splitLinesAux (d :: rest) []
    else if c = Char.ofNat 13 ∧ d = Char.ofNat 10 then
      ⟨cur.reverse⟩ :: splitLinesAux rest []
    else splitLinesAux (d :: rest) (c :: cur)

def splitLinesJs (s : String) : List String := splitLinesAux s.data []

def startsWithBraceO (s : String) : Bool :=
  match s.data with
  | c :: _ => c = braceO
  | [] => false

def joinNl (l : List String) : String :=
  match l with
  | [] => ""
  | [s] => s
  | s :: rest => s ++ "\n" ++ joinNl rest

/-- Dispatch on one parsed payload: record the thread id of a
`thread.started` event (when `thread_id` is a truthy string); collect the
text of `item.completed` items whose `type` contains `"message"`. -/
def codexStep (tid : Option String) (msgs : List String) (p : Json) :
    Option String × List String :=
  let ptype := (p.getField "type").bind Json.asStr
  let threadIdVal : Option String :=
    match (p.getField "thread_id").bind Json.asStr with
    | some s => if s = "" then none else some s
    | none => none
  if ptype = some "thread.started" ∧ threadIdVal.isSome then
    (threadIdVal, msgs)
  else if ptype = some "item.completed" then
    match p.getField "item" with
    | some item =>
      match item.getField "text" with
      | some (.str t) =>
        let itemType :=
          match item.getField "type" with
          | some (.str s2) => s2
          | _ => ""
        if jsIncludes itemType "message" then (tid, msgs ++ [t]) else (tid, msgs)
      | _ => (tid, msgs)
    | none => (tid, msgs)
  else (tid, msgs)

/-- The buffering loop: skip lines until one starts with an opening brace,
accumulate lines until the buffer parses, then dispatch and reset. -/
def codexLinesLoop (lines : List String) (buffer : String) (sawJson : Bool)
    (tid : Option String) (msgs : List String) :
    Bool × Option String × List String :=
  match lines with
  | [] => (sawJson, tid, msgs)
  | line :: rest =>
    if buffer = "" ∧ ¬ startsWithBraceO line then
      codexLinesLoop rest "" sawJson tid msgs
    else
      let buffer1 := if buffer = "" then line else buffer ++ line
      match jsonParse buffer1 with
      | none => codexLinesLoop rest buffer1 sawJson tid msgs
      | some payload =>
        let r := codexStep tid msgs payload
        codexLinesLoop rest "" true r.1 r.2

def parseCodexJsonOutput (output : String) : ParsedOutput :=
  let r := codexLinesLoop (splitLinesJs output) "" false none []
  { text := jsTrim (joinNl r.2.2), threadId := r.2.1, sawJson := r.1 }

/-! ### Stale-session phrase matcher (agent runner, `STALE_SESSION_PATTERNS`)

All seven patterns are case-insensitive.  Six are literal substrings.  The
second, `session [word-or-dash]+ not found`, is decided by taking the
maximal run of word/dash characters after a `"session "` occurrence: the
class excludes the space, so the regex matches iff the maximal run is
non-empty and is followed by `" not found"`. -/

def wordDashChar (c : Char) : Bool :=
  c.isAlpha || c.isDigit || c = Char.ofNat 95 || c = Char.ofNat 45

def staleSessionIdAt (l : List Char) : Bool :=
  "session ".data.isPrefixOf l &&
    (let r := l.drop 8
     let run := r.takeWhile wordDashChar
     decide (1 ≤ run.length) && " not found".data.isPrefixOf (r.drop run.length))

def staleSessionIdSomewhere (l : List Char) : Bool :=
  match l with
  | [] => false
  | _ :: rest => staleSessionIdAt l || staleSessionIdSomewhere rest

def staleMatch (s : String) : Bool :=
  let low := (toLowerStr s).data
  listContainsSub "no conversation found with session id".data low ||
  staleSessionIdSomewhere low ||
  listContainsSub "invalid session".data low ||
  listContainsSub "conversation not found".data low ||
  listContainsSub "session has expired".data low ||
  listContainsSub "could not find session".data low ||
  listContainsSub "unknown session".data low

/-! ### Agent runner (`createAgentRunner(options).runAgentForChat`)

The injected collaborators become `RunnerDeps`; the three mutable maps
(`threads` via `getThreads()`, `threadTurns`, `threadContextChars`) plus the
closure-local `retrievalCache` become `RunnerState`.  `Date.now()` does not
advance during one run, so the state carries a single clock value `now`.
`execLocal` and its retries become an oracle indexed by call order (0 = first
agent attempt, 1 = retry or session-list call, 2 = session-list call after a
retry).  `persistThreads` and `console` logging are fire-and-forget with no
effect on the maps and are not part of the state transition; the phase-1 /
phase-2 `onTokenUsage` callbacks only read state and are likewise omitted. -/

structure ExecErr where
  stdout : Option String
  stderr : Option String
deriving Repr, DecidableEq

abbrev ExecOutcome := Except ExecErr String

structure BuildCmdArgs where
  prompt : String
  promptExpression : Option String
  threadId : Option String
  threadIdExpression : Option String
  thinking : Option String
  model : Option String
deriving Repr, DecidableEq

structure RetrievalArgs where
  query : String
  chatId : String
  topicId : Option String
  agentId : String
  limit : Nat
deriving Repr, DecidableEq

structure Agent where
  id : String
  needsPty : Bool
  mergeStderr : Bool
  buildCommand : BuildCmdArgs → String
  parseOutput : String → ParsedOutput
  /-- Holds `some cmd` iff the adapter defines `listSessionsCommand`. -/
  listSessionsCommand : Option String
  parseSessionList : Option (String → Option String)

structure BuildPromptOpts where
  includeFileInstructions : Bool
  includeStyleInstructions : Bool
deriving Repr, DecidableEq

structure ResolveResult where
  threadKey : String
  threadId : Option String
  migrated : Bool
deriving Repr, DecidableEq

structure RunnerDeps where
  buildBootstrapContext : String → Bool → String
  buildMemoryRetrievalContext : RetrievalArgs → String
  buildPrompt : String → List String → String → Option String → List String →
    String → BuildPromptOpts → String
  getAgent : String → Agent
  getGlobalModels : String → Option String
  getGlobalThinking : Option String
  resolveEffectiveAgentId : String → Option String → Option String → String
  resolveThreadId : List (String × String) → String → Option String → String →
    ResolveResult
  /-- Embeds `prefixTextWithTimestamp` from time-utils. -/
  stampTimestamp : String → String
  wrapCommandWithPty : String → String
  imageDir : String
  documentDir : String

structure RunnerCfg where
  threadRotationTurns : Nat
  threadMaxContextChars : Nat
  fileInstructionsEvery : Nat
  memoryRetrievalLimit : Nat
deriving Repr, DecidableEq

structure CacheEntry where
  ts : Nat
  value : String
deriving Repr, DecidableEq

structure RunnerState where
  threads : List (String × String)
  threadTurns : List (String × Nat)
  threadContextChars : List (String × Nat)
  retrievalCache : List (String × CacheEntry)
  now : Nat
deriving Repr, DecidableEq

structure RunOptions where
  topicId : Option String
  agentId : Option String
  model : Option String
  imagePaths : List String
  scriptContext : Option String
  documentPaths : List String
deriving Repr, DecidableEq

def RETRIEVAL_CACHE_TTL_MS : Nat := 60000

/-- Embeds `getCachedRetrieval(key)`: a stale entry is deleted and reported as a
miss; JS `now - ts` is never negative on entries created by this process, so
Nat subtraction is exact. -/
def getCachedRetrieval (st : RunnerState) (key : String) :
    Option String × RunnerState :=
  match alookup st.retrievalCache key with
  | none => (none, st)
  | some e =>
    if RETRIEVAL_CACHE_TTL_MS < st.now - e.ts then
      (none, { st with retrievalCache := aerase st.retrievalCache key })
    else
      (some e.value, st)

/-- Embeds `setCachedRetrieval(key, value)` with the bounded-size stale sweep. -/
def setCachedRetrieval (st : RunnerState) (key value : String) : RunnerState :=
  let cache1 := ainsert st.retrievalCache key ⟨st.now, value⟩
  let cache2 :=
    if 100 < cache1.length then
      cache1.filter (fun kv => decide (st.now - kv.2.ts ≤ RETRIEVAL_CACHE_TTL_MS))
    else cache1
  { st with retrievalCache := cache2 }

/-- The cache key of the retrieval block:
`chatId + colon + (topicId || '') + colon + prompt.trim().slice(0, 200)`. -/
def retrievalCacheKey (chatId : String) (topicId : Option String)
    (prompt : String) : String :=
  chatId ++ ":" ++ topicId.getD "" ++ ":" ++ jsTake (jsTrim prompt) 200

/-- The retrieval block (inlined twice in the source: the normal path and the
stale-session retry).  Returns the updated state, the retrieval context, and
whether the memory-store retriever was actually queried.  `retrievalContext
|| ''` is the identity on strings, so the cached value is the retriever
result itself — the empty string acts as the re-query-suppressing
sentinel. -/
def retrievalLookup (cfg : RunnerCfg) (deps : RunnerDeps) (st : RunnerState)
    (chatId prompt : String) (topicId : Option String)
    (effectiveAgentId : String) : RunnerState × String × Bool :=
  let cacheKey := retrievalCacheKey chatId topicId prompt
  let g := getCachedRetrieval st cacheKey
  match g.1 with
  | some v => (g.2, v, false)
  | none =>
    let rc := deps.buildMemoryRetrievalContext
      ⟨prompt, chatId, topicId, effectiveAgentId, cfg.memoryRetrievalLimit⟩
    (setCachedRetrieval g.2 cacheKey rc, rc, true)

/-- Everything `runAgentForChat` computes before the first subprocess call
(source lines 144-268): agent resolution, turn bump, the rotation decision
and its state mutations, bootstrap/retrieval prompt assembly, and the
subprocess command. -/
structure Prep where
  effectiveAgentId : String
  threadKey : String
  /-- session id as resolved from the thread store, before rotation -/
  threadIdBefore : Option String
  /-- session id actually used for the attempt (cleared by rotation) -/
  threadId : Option String
  turnCount : Nat
  rotated : Bool
  /-- state right after the rotation block -/
  postRotation : RunnerState
  /-- `some compact` iff a bootstrap was prepended to this run's prompt -/
  bootstrapCompact : Option Bool
  retrievalConsulted : Bool
  retrieverQueried : Bool
  assembledPrompt : String
  finalPrompt : String
  buildArgs : BuildCmdArgs
  commandToRun : String
  /-- state going into the subprocess call -/
  st1 : RunnerState
deriving Repr, DecidableEq

def modelArg (deps : RunnerDeps) (effectiveAgentId : String)
    (overrideModel : Option String) : Option String :=
  match overrideModel with
  | some m => if m = "" then deps.getGlobalModels effectiveAgentId else some m
  | none => deps.getGlobalModels effectiveAgentId

def prepareRun (cfg : RunnerCfg) (deps : RunnerDeps) (st : RunnerState)
    (chatId prompt : String) (opts : RunOptions) : Prep :=
  let effectiveAgentId := deps.resolveEffectiveAgentId chatId opts.topicId opts.agentId
  let agent := deps.getAgent effectiveAgentId
  let r := deps.resolveThreadId st.threads chatId opts.topicId effectiveAgentId
  let threadKey := r.threadKey
  let turnCount := (alookup st.threadTurns threadKey).getD 0 + 1
  let st := { st with threadTurns := ainsert st.threadTurns threadKey turnCount }
  let contextSize := (alookup st.threadContextChars threadKey).getD 0
  let turnLimitHit := decide (0 < cfg.threadRotationTurns) && r.threadId.isSome &&
    decide (cfg.threadRotationTurns ≤ turnCount)
  let contextLimitHit := decide (0 < cfg.threadMaxContextChars) && r.threadId.isSome &&
    decide (cfg.threadMaxContextChars ≤ contextSize)
  let unknownContext := decide (0 < cfg.threadMaxContextChars) && r.threadId.isSome &&
    !(amem st.threadContextChars threadKey)
  let rotated := turnLimitHit || contextLimitHit || unknownContext
  let st :=
    if rotated then
      { st with
        threads := aerase st.threads threadKey
        threadTurns := ainsert st.threadTurns threadKey 1
        threadContextChars := aerase st.threadContextChars threadKey }
    else st
  let threadId := if rotated then none else r.threadId
  let postRotation := st
  let shouldIncludeInstructions :=
    threadId.isNone || decide (turnCount % cfg.fileInstructionsEvery = 0)
  let pwc0 := if agent.id = "claude" then deps.stampTimestamp prompt else prompt
  let pwcPair : String × Option Bool :=
    if threadId.isNone then
      let bootstrap := deps.buildBootstrapContext threadKey rotated
      (if pwc0 ≠ "" then bootstrap ++ "\n\n" ++ pwc0 else bootstrap, some rotated)
    else (pwc0, none)
  let retrievalConsulted := decide (15 ≤ jsLen (jsTrim prompt))
  let rl : RunnerState × String × Bool :=
    if retrievalConsulted then
      retrievalLookup cfg deps st chatId prompt opts.topicId effectiveAgentId
    else (st, "", false)
  let st := rl.1
  let retrievalContext := rl.2.1
  let assembledPrompt :=
    if retrievalConsulted ∧ retrievalContext ≠ "" then
      if pwcPair.1 ≠ "" then pwcPair.1 ++ "\n\n" ++ retrievalContext
      else retrievalContext
    else pwcPair.1
  let finalPrompt := deps.buildPrompt assembledPrompt opts.imagePaths deps.imageDir
    opts.scriptContext opts.documentPaths deps.documentDir
    ⟨shouldIncludeInstructions, shouldIncludeInstructions⟩
  let buildArgs : BuildCmdArgs :=
    { prompt := finalPrompt
      promptExpression := some "\"$AIPAL_PROMPT\""
      threadId
      threadIdExpression := if threadId.isSome then some "\"$AIPAL_THREAD_ID\"" else none
      thinking := deps.getGlobalThinking
      model := modelArg deps effectiveAgentId opts.model }
  let agentCmd := agent.buildCommand buildArgs
  let cmd1 := if agent.needsPty then deps.wrapCommandWithPty agentCmd else agentCmd
  let commandToRun := if agent.mergeStderr then cmd1 ++ " 2>&1" else cmd1
  { effectiveAgentId, threadKey, threadIdBefore := r.threadId, threadId, turnCount,
    rotated, postRotation, bootstrapCompact := pwcPair.2, retrievalConsulted,
    retrieverQueried := rl.2.2, assembledPrompt, finalPrompt, buildArgs,
    commandToRun, st1 := st }

/-- The `try { execLocal } catch` discipline: a rejection whose `stdout` is a
string with non-blank content is downgraded to that stdout; otherwise the
error is rethrown. -/
def execAttempt (o : ExecOutcome) : Except ExecErr (String × Option ExecErr) :=
  match o with
  | .ok s => .ok (s, none)
  | .error e =>
    match e.stdout with
    | some s => if jsTrim s ≠ "" then .ok (s, some e) else .error e
    | none => .error e

/-- The text scanned for stale-session phrases:
`parsed.text + newline + output + newline + (execError?.stderr || '')`. -/
def staleText (parsed : ParsedOutput) (output : String)
    (execErr : Option ExecErr) : String :=
  parsed.text ++ "\n" ++ output ++ "\n" ++ ((execErr.bind ExecErr.stderr).getD "")

def staleCheck (threadId : Option String) (parsed : ParsedOutput)
    (output : String) (execErr : Option ExecErr) : Bool :=
  threadId.isSome && !parsed.sawJson && staleMatch (staleText parsed output execErr)

/-- The stale-session recovery block (source lines 303-373): clear the thread
store and counters, rebuild the prompt as a fresh thread with a compact
bootstrap and the retrieval block re-run, and build a resume-free command. -/
structure RetryPrep where
  /-- state right after the stale-session cleanup -/
  postClear : RunnerState
  /-- the `compact` flag passed to `buildBootstrapContext` for the retry -/
  bootstrapCompact : Bool
  retrievalConsulted : Bool
  retrieverQueried : Bool
  finalPrompt : String
  buildArgs : BuildCmdArgs
  commandToRun : String
  st2 : RunnerState
deriving Repr, DecidableEq

def prepareRetry (cfg : RunnerCfg) (deps : RunnerDeps) (st : RunnerState)
    (chatId prompt : String) (opts : RunOptions)
    (threadKey effectiveAgentId : String) : RetryPrep :=
  let agent := deps.getAgent effectiveAgentId
  let st :=
    { st with
      threads := aerase st.threads threadKey
      threadTurns := ainsert st.threadTurns threadKey 1
      threadContextChars := aerase st.threadContextChars threadKey }
  let postClear := st
  let rp0 := if agent.id = "claude" then deps.stampTimestamp prompt else prompt
  let bootstrap := deps.buildBootstrapContext threadKey true
  let retryPrompt0 := if rp0 ≠ "" then bootstrap ++ "\n\n" ++ rp0 else bootstrap
  let retrievalConsulted := decide (15 ≤ jsLen (jsTrim prompt))
  let rl : RunnerState × String × Bool :=
    if retrievalConsulted then
      retrievalLookup cfg deps st chatId prompt opts.topicId effectiveAgentId
    else (st, "", false)
  let st := rl.1
  let retryPrompt :=
    if retrievalConsulted ∧ rl.2.1 ≠ "" then retryPrompt0 ++ "\n\n" ++ rl.2.1
    else retryPrompt0
  let finalPrompt := deps.buildPrompt retryPrompt [] deps.imageDir none []
    deps.documentDir ⟨true, true⟩
  let buildArgs : BuildCmdArgs :=
    { prompt := finalPrompt
      promptExpression := some "\"$AIPAL_PROMPT\""
      threadId := none
      threadIdExpression := none
      thinking := deps.getGlobalThinking
      model := modelArg deps effectiveAgentId opts.model }
  let agentCmd := agent.buildCommand buildArgs
  let cmd1 := if agent.needsPty then deps.wrapCommandWithPty agentCmd else agentCmd
  let commandToRun := if agent.mergeStderr then cmd1 ++ " 2>&1" else cmd1
  { postClear, bootstrapCompact := true, retrievalConsulted,
    retrieverQueried := rl.2.2, finalPrompt, buildArgs, commandToRun, st2 := st }

/-- JS truthiness of an optional string. -/
def optTruthy (o : Option String) : Bool :=
  match o with
  | some s => s ≠ ""
  | none => false

/-- The tail of the pipeline (source lines 401-456): rethrow a swallowed exec
error when the parse produced neither JSON nor text, run the session-list
fallback, persist a truthy parsed thread id, and bump the accumulated context
size by the length of the (original) final prompt plus the response. -/
def finishRun (agent : Agent) (st : RunnerState) (threadKey : String)
    (origFinalPromptLen : Nat) (output : String) (parsed : ParsedOutput)
    (execErr : Option ExecErr) (listExec : ExecOutcome) :
    RunnerState × Except ExecErr String :=
  if execErr.isSome ∧ parsed.sawJson = false ∧ jsTrim parsed.text = "" then
    (st, .error (execErr.getD ⟨none, none⟩))
  else
    let parsedTid : Option String :=
      if ¬ optTruthy parsed.threadId ∧ agent.listSessionsCommand.isSome then
        match listExec with
        | .ok listOut =>
          match agent.parseSessionList with
          | some pf =>
            match pf listOut with
            | some resolved => if resolved ≠ "" then some resolved else parsed.threadId
            | none => parsed.threadId
          | none => parsed.threadId
        | .error _ => parsed.threadId
      else parsed.threadId
    let st :=
      if optTruthy parsedTid then
        { st with threads := ainsert st.threads threadKey (parsedTid.getD "") }
      else st
    let responseText := if parsed.text ≠ "" then parsed.text else output
    let st :=
      { st with
        threadContextChars := ainsert st.threadContextChars threadKey
          ((alookup st.threadContextChars threadKey).getD 0 +
            origFinalPromptLen + jsLen responseText) }
    (st, .ok responseText)

structure RunTrace where
  prep : Prep
  /-- Holds `(output, parsed, execError)` of the first attempt, when it did not
  rethrow -/
  firstAttempt : Option (String × ParsedOutput × Option ExecErr)
  staleDetected : Bool
  retry : Option RetryPrep
  /-- number of agent subprocess invocations attempted -/
  agentExecs : Nat
deriving Repr, DecidableEq

def runAgentForChat (cfg : RunnerCfg) (deps : RunnerDeps)
    (execs : Nat → ExecOutcome) (st : RunnerState) (chatId prompt : String)
    (opts : RunOptions) : RunnerState × RunTrace × Except ExecErr String :=
  let prep := prepareRun cfg deps st chatId prompt opts
  let agent := deps.getAgent prep.effectiveAgentId
  match execAttempt (execs 0) with
  | .error e =>
    (prep.st1,
     { prep, firstAttempt := none, staleDetected := false, retry := none,
       agentExecs := 1 },
     .error e)
  | .ok (out0, err0) =>
    let parsed0 := agent.parseOutput out0
    let fa := some (out0, parsed0, err0)
    if staleCheck prep.threadId parsed0 out0 err0 then
      let retry := prepareRetry cfg deps prep.st1 chatId prompt opts
        prep.threadKey prep.effectiveAgentId
      match execAttempt (execs 1) with
      | .error e =>
        (retry.st2,
         { prep, firstAttempt := fa, staleDetected := true, retry := some retry,
           agentExecs := 2 },
         .error e)
      | .ok (out1, err1) =>
        let parsed1 := agent.parseOutput out1
        let fin := finishRun agent retry.st2 prep.threadKey
          (jsLen prep.finalPrompt) out1 parsed1 err1 (execs 2)
        (fin.1,
         { prep, firstAttempt := fa, staleDetected := true, retry := some retry,
           agentExecs := 2 },
         fin.2)
    else
      let fin := finishRun agent prep.st1 prep.threadKey
        (jsLen prep.finalPrompt) out0 parsed0 err0 (execs 1)
      (fin.1,
       { prep, firstAttempt := fa, staleDetected := false, retry := none,
         agentExecs := 1 },
       fin.2)

/-! ### Background task manager (src/services/background-tasks.js `dispatch`)

The per-thread-key serialization idiom

  `const prev = chains.get(threadKey) || Promise.resolve();`
  `const next = prev.catch(() => \x7b\x7d).then(work);`
  `chains.set(threadKey, next);`
  `next.finally(() => \x7b if (chains.get(threadKey) === next) chains.delete(threadKey); \x7d);`

is modelled as a labelled transition system over the event loop.  A task's
promise `next` settles exactly when its `work` settles, so `next` is
identified with the task.  The four transitions:

* `dispatch` — run the synchronous body of `dispatch(...)`: allocate a task
  whose predecessor is the current tail for its key and make it the new tail.
* `start` — the scheduler fires the `.then(work)` callback; JS enables it
  once the predecessor promise has settled, whether fulfilled or rejected,
  because `prev.catch(() => \x7b\x7d)` converts a rejection into fulfilment.
  A task with no predecessor chains on the already-settled
  `Promise.resolve()`.
* `settle` — the task's `work` settles; `b` records whether it rejected.
* `cleanup` — the `.finally` microtask runs: mark it done, and delete the
  chain entry iff this task's promise is still the current tail. -/

inductive TaskStatus where
  | notStarted
  | running
  | settled
deriving Repr, DecidableEq

structure BgTask where
  key : String
  status : TaskStatus
  /-- whether the work rejected when it settled -/
  failed : Bool
  /-- chain tail (task id) read from `chains` at dispatch time -/
  pred : Option Nat
  /-- whether the `.finally` cleanup has run -/
  cleaned : Bool
deriving Repr, DecidableEq

structure BgState where
  nextId : Nat
  task : Nat → Option BgTask
  chains : List (String × Nat)

def bgInit : BgState := ⟨0, fun _ => none, []⟩

def updTask (f : Nat → Option BgTask) (i : Nat) (t : BgTask) :
    Nat → Option BgTask :=
  fun j => if j = i then some t else f j

/-- Says that `prev.catch` swallowed the outcome: the catch-promise is fulfilled once `prev` settles in either
way; a missing predecessor is `Promise.resolve()`, already settled. -/
def BgPredSettled (s : BgState) (p : Option Nat) : Prop :=
  match p with
  | none => True
  | some j => ∃ u, s.task j = some u ∧ u.status = TaskStatus.settled

inductive BgStep : BgState → BgState → Prop where
  | dispatch (s : BgState) (k : String) :
      BgStep s
        ⟨s.nextId + 1,
         updTask s.task s.nextId
           ⟨k, TaskStatus.notStarted, false, alookup s.chains k, false⟩,
         ainsert s.chains k s.nextId⟩
  | start (s : BgState) (i : Nat) (t : BgTask) (ht : s.task i = some t)
      (hs : t.status = TaskStatus.notStarted) (hp : BgPredSettled s t.pred) :
      BgStep s ⟨s.nextId, updTask s.task i { t with status := TaskStatus.running }, s.chains⟩
  | settle (s : BgState) (i : Nat) (t : BgTask) (b : Bool)
      (ht : s.task i = some t) (hs : t.status = TaskStatus.running) :
      BgStep s
        ⟨s.nextId,
         updTask s.task i { t with status := TaskStatus.settled, failed := b },
         s.chains⟩
  | cleanup (s : BgState) (i : Nat) (t : BgTask) (ht : s.task i = some t)
      (hs : t.status = TaskStatus.settled) (hc : t.cleaned = false) :
      BgStep s
        ⟨s.nextId, updTask s.task i { t with cleaned := true },
         if alookup s.chains t.key = some i then aerase s.chains t.key
         else s.chains⟩

inductive BgReachable : BgState → Prop where
  | init : BgReachable bgInit
  | step {s s2 : BgState} : BgReachable s → BgStep s s2 → BgReachable s2

/-- The inductive invariant of the background-task chain machine. -/
structure BgInv (s : BgState) : Prop where
  /-- task ids below `nextId` only -/
  bound : ∀ i, s.nextId ≤ i → s.task i = none
  /-- serialization: a later same-key task starts only once every earlier
  same-key task has settled -/
  order : ∀ i j ti tj, i < j → s.task i = some ti → s.task j = some tj →
    ti.key = tj.key → tj.status ≠ TaskStatus.notStarted →
    ti.status = TaskStatus.settled
  /-- a chain entry points at the last dispatched task of its key, whose
  cleanup has not run -/
  chainSome : ∀ k i, alookup s.chains k = some i → ∃ t, s.task i = some t ∧
    t.key = k ∧ t.cleaned = false ∧
    ∀ j u, i < j → s.task j = some u → u.key ≠ k
  /-- a missing chain entry means every task of that key has settled -/
  chainNone : ∀ k, alookup s.chains k = none → ∀ i t, s.task i = some t →
    t.key = k → t.status = TaskStatus.settled
  /-- a recorded predecessor is the immediately preceding same-key task -/
  predSome : ∀ j t p, s.task j = some t → t.pred = some p →
    p < j ∧ (∃ u, s.task p = some u ∧ u.key = t.key) ∧
    ∀ m v, p < m → m < j → s.task m = some v → v.key ≠ t.key
  /-- a task dispatched onto an empty chain has only settled same-key
  predecessors -/
  predNone : ∀ j t, s.task j = some t → t.pred = none →
    ∀ m v, m < j → s.task m = some v → v.key = t.key →
      v.status = TaskStatus.settled

/-- Witness scenario states: dispatch on key k, start, settle with a
rejection, dispatch on the same key again, start the second task. -/
def bgW1 : BgState :=
  ⟨bgInit.nextId + 1,
   updTask bgInit.task bgInit.nextId
     ⟨"k", TaskStatus.notStarted, false, alookup bgInit.chains "k", false⟩,
   ainsert bgInit.chains "k" bgInit.nextId⟩

def bgW2 : BgState :=
  ⟨bgW1.nextId,
   updTask bgW1.task 0
     ⟨"k", TaskStatus.running, false, alookup bgInit.chains "k", false⟩,
   bgW1.chains⟩

def bgW3 : BgState :=
  ⟨bgW2.nextId,
   updTask bgW2.task 0
     ⟨"k", TaskStatus.settled, true, alookup bgInit.chains "k", false⟩,
   bgW2.chains⟩

def bgW4 : BgState :=
  ⟨bgW3.nextId + 1,
   updTask bgW3.task bgW3.nextId
     ⟨"k", TaskStatus.notStarted, false, alookup bgW3.chains "k", false⟩,
   ainsert bgW3.chains "k" bgW3.nextId⟩

def bgW5 : BgState :=
  ⟨bgW4.nextId,
   updTask bgW4.task 1
     ⟨"k", TaskStatus.running, false, alookup bgW3.chains "k", false⟩,
   bgW4.chains⟩

/-! ### Concrete fixtures

Witness scenarios instantiate the runner's injected collaborators with the
same kind of fake agent the repository's own end-to-end tests use. -/

def fakeParse (output : String) : ParsedOutput :=
  if output = "OUT-NEW" then ⟨"Primera respuesta", some "thread-1", true⟩
  else if output = "OUT-RESUME" then ⟨"Segunda respuesta", none, true⟩
  else ⟨jsTrim output, none, false⟩

def fakeAgent : Agent :=
  { id := "fake"
    needsPty := false
    mergeStderr := false
    buildCommand := fun args => "fake-agent --thread " ++ (args.threadId.getD "new")
    parseOutput := fakeParse
    listSessionsCommand := none
    parseSessionList := none }

def fakeResolveThreadId (m : List (String × String)) (chatId : String)
    (topicId : Option String) (agentId : String) : ResolveResult :=
  let key := chatId ++ ":" ++ topicId.getD "root" ++ ":" ++ agentId
  ⟨key, alookup m key, false⟩

def fakeDeps : RunnerDeps :=
  { buildBootstrapContext := fun threadKey compact =>
      (if compact then "COMPACT-BOOTSTRAP(" else "BOOTSTRAP(") ++ threadKey ++ ")"
    buildMemoryRetrievalContext := fun args => "MEMORY(" ++ args.query ++ ")"
    buildPrompt := fun p _ _ _ _ _ _ => p
    getAgent := fun _ => fakeAgent
    getGlobalModels := fun _ => none
    getGlobalThinking := none
    resolveEffectiveAgentId := fun _ _ _ => "fake"
    resolveThreadId := fakeResolveThreadId
    stampTimestamp := fun s => s
    wrapCommandWithPty := fun s => s
    imageDir := "/img"
    documentDir := "/doc" }

def emptyRunOptions : RunOptions := ⟨none, none, none, [], none, []⟩

/-- Turn-limit scenario: rotation turns 3, the key already at turn 2 with a
live session. -/
def rotCfg : RunnerCfg := ⟨3, 0, 100, 3⟩

def rotState : RunnerState :=
  ⟨[("12345:root:fake", "t-1")], [("12345:root:fake", 2)],
   [("12345:root:fake", 10)], [], 0⟩

/-- Stale-session scenario: no rotation limits, a live session id, and a
first attempt whose output is the S4 stale-session error line. -/
def noRotCfg : RunnerCfg := ⟨0, 0, 100, 3⟩

def staleState : RunnerState :=
  ⟨[("12345:root:fake", "t-1")], [], [("12345:root:fake", 10)], [], 0⟩

def staleExecs : Nat → ExecOutcome :=
  fun n =>
    if n = 0 then
      Except.ok "Error: no conversation found with session id t-1"
    else Except.ok "OUT-NEW"

/-! ## Theorems -/

/-! ### Association-list lemmas -/

theorem alookup_ainsert_self {α : Type} (m : List (String × α)) (k : String)
    (v : α) : alookup (ainsert m k v) k = some v := by
  simp [ainsert, alookup]

theorem alookup_aerase_self {α : Type} (m : List (String × α)) (k : String) :
    alookup (aerase m k) k = none := by
  induction m with
  | nil => simp [aerase, alookup]
  | cons hd tl ih =>
    obtain ⟨k1, v⟩ := hd
    by_cases h : k1 = k <;> simp [aerase, alookup, h, ih]

theorem alookup_aerase_ne {α : Type} (m : List (String × α)) {k k1 : String}
    (h : k1 ≠ k) : alookup (aerase m k) k1 = alookup m k1 := by
  induction m with
  | nil => simp [aerase, alookup]
  | cons hd tl ih =>
    obtain ⟨k2, v⟩ := hd
    by_cases h2 : k2 = k
    · subst h2
      simp [aerase, alookup, Ne.symm h, ih]
    · simp only [aerase, if_neg h2, alookup]
      by_cases h3 : k2 = k1 <;> simp [h3, ih]

theorem alookup_ainsert_ne {α : Type} (m : List (String × α)) {k k1 : String}
    (v : α) (h : k1 ≠ k) : alookup (ainsert m k v) k1 = alookup m k1 := by
  simp [ainsert, alookup, Ne.symm h, alookup_aerase_ne m h]

/-! ### Token tracker lemmas -/

theorem ensureToday_date (today : String) (st : TrackerState) :
    (ensureToday today st).date = today := by
  unfold ensureToday
  split
  · rename_i h
    exact h
  · rfl

theorem ensureToday_of_date {today : String} {st : TrackerState}
    (h : st.date = today) : ensureToday today st = st := by
  simp [ensureToday, h]

theorem trackUsageBuckets_date (today : String) (st : TrackerState)
    (a : TrackArgs) :
    (trackUsageBuckets today st a).date = (ensureToday today st).date := rfl

theorem trackUsageBuckets_chats (today : String) (st : TrackerState)
    (a : TrackArgs) :
    (trackUsageBuckets today st a).chats =
      bumpBucket (ensureToday today st).chats (chatKey a.chatId)
        a.inputTokens a.outputTokens := rfl

theorem trackUsageBuckets_alertsSent (today : String) (st : TrackerState)
    (a : TrackArgs) :
    (trackUsageBuckets today st a).alertsSent =
      (ensureToday today st).alertsSent := rfl

theorem trackUsage_date (cfg : TrackerCfg) (today : String) (st : TrackerState)
    (a : TrackArgs) : (trackUsage cfg today st a).1.date = today := by
  by_cases hb : 0 < cfg.budgetDaily ∧ cfg.hasSendAlert = true <;>
    simp [trackUsage, hb, trackUsageBuckets_date, ensureToday_date]

theorem trackUsage_chats (cfg : TrackerCfg) (today : String) (st : TrackerState)
    (a : TrackArgs) :
    (trackUsage cfg today st a).1.chats =
      bumpBucket (ensureToday today st).chats (chatKey a.chatId)
        a.inputTokens a.outputTokens := by
  by_cases hb : 0 < cfg.budgetDaily ∧ cfg.hasSendAlert = true <;>
    simp [trackUsage, hb, trackUsageBuckets_chats]

theorem chatMessages_bumpBucket (m : List (String × Bucket)) (k : String)
    (inp outp : Int) :
    ((alookup (bumpBucket m k inp outp) k).getD Bucket.zero).messages =
      ((alookup m k).getD Bucket.zero).messages + (if 0 < inp then 1 else 0) := by
  simp [bumpBucket, alookup_ainsert_self]

/-- C4 support: one `trackUsage` call changes the chat's message counter by
exactly the `inputTokens > 0` indicator. -/
theorem trackUsage_messages (cfg : TrackerCfg) (d : String) (st : TrackerState)
    (a : TrackArgs) (hd : st.date = d) :
    chatMessages (trackUsage cfg d st a).1 (chatKey a.chatId) =
      chatMessages st (chatKey a.chatId) + (if 0 < a.inputTokens then 1 else 0) := by
  unfold chatMessages
  rw [trackUsage_chats, ensureToday_of_date hd, chatMessages_bumpBucket]

/-! ### Token tracker alert lemmas (C5 support) -/

theorem alertFold_sent_eq (pct : Rat) (sent ts : List Int) :
    (alertFold pct sent ts).1 = sent ++ (alertFold pct sent ts).2 := by
  induction ts generalizing sent with
  | nil => simp [alertFold]
  | cons t rest ih =>
    by_cases h : (t : Rat) ≤ pct ∧ t ∉ sent
    · simp only [alertFold, if_pos h]
      rw [ih (sent ++ [t])]
      simp
    · simp only [alertFold, if_neg h]
      exact ih sent

theorem alertFold_sublist (pct : Rat) (sent ts : List Int) :
    List.Sublist (alertFold pct sent ts).2 ts := by
  induction ts generalizing sent with
  | nil => simp [alertFold]
  | cons t rest ih =>
    by_cases h : (t : Rat) ≤ pct ∧ t ∉ sent
    · simp only [alertFold, if_pos h]
      exact List.Sublist.cons₂ t (ih (sent ++ [t]))
    · simp only [alertFold, if_neg h]
      exact List.Sublist.cons t (ih sent)

theorem alertFold_not_sent (pct : Rat) (sent ts : List Int) :
    ∀ t ∈ (alertFold pct sent ts).2, t ∉ sent := by
  induction ts generalizing sent with
  | nil => simp [alertFold]
  | cons t rest ih =>
    by_cases h : (t : Rat) ≤ pct ∧ t ∉ sent
    · simp only [alertFold, if_pos h]
      intro t1 ht1
      rcases List.mem_cons.mp ht1 with h1 | h1
      · subst h1
        exact h.2
      · have := ih (sent ++ [t]) t1 h1
        intro hmem
        exact this (List.mem_append_left _ hmem)
    · simp only [alertFold, if_neg h]
      exact ih sent

/-- C5 support: per-call behaviour of `trackUsage` towards alerts. -/
theorem trackUsage_alert_spec (cfg : TrackerCfg) (d : String)
    (st : TrackerState) (a : TrackArgs) :
    List.Sublist (trackUsage cfg d st a).2 THRESHOLDS ∧
    (∀ t ∈ (trackUsage cfg d st a).2, t ∉ (ensureToday d st).alertsSent) ∧
    (trackUsage cfg d st a).1.alertsSent =
      (ensureToday d st).alertsSent ++ (trackUsage cfg d st a).2 := by
  by_cases hb : 0 < cfg.budgetDaily ∧ cfg.hasSendAlert = true
  · simp only [trackUsage, if_pos hb]
    rw [trackUsageBuckets_alertsSent]
    exact ⟨alertFold_sublist _ _ _, alertFold_not_sent _ _ _,
      alertFold_sent_eq _ _ _⟩
  · simp only [trackUsage, if_neg hb]
    rw [trackUsageBuckets_alertsSent]
    exact ⟨List.nil_sublist _, by simp, by simp⟩

/-- C5 support: emitted alerts accumulate without ever repeating a
`(threshold, day)` pair, provided the day sequence never revisits an earlier
day (the clock is monotone). -/
theorem runTrack_nodup_aux (cfg : TrackerCfg) :
    ∀ (calls : List (String × TrackArgs)) (st : TrackerState)
      (acc : List (Int × String)),
      List.Chain' (· ≤ ·) (st.date :: calls.map Prod.fst) →
      (∀ p ∈ acc, p.2 ≤ st.date) →
      (∀ t : Int, (t, st.date) ∈ acc → t ∈ st.alertsSent) →
      acc.Nodup →
      (acc ++ (runTrack cfg st calls).2).Nodup := by
  intro calls
  induction calls with
  | nil =>
    intro st acc _ _ _ hnodup
    simpa [runTrack] using hnodup
  | cons call rest ih =>
    obtain ⟨d, a⟩ := call
    intro st acc hchain haccle haccsent hnodup
    have hle : st.date ≤ d := (List.chain'_cons.mp hchain).1
    have hchain2 : List.Chain' (· ≤ ·) (d :: rest.map Prod.fst) :=
      (List.chain'_cons.mp hchain).2
    have hspec := trackUsage_alert_spec cfg d st a
    set st1 := (trackUsage cfg d st a).1 with hst1
    set em := (trackUsage cfg d st a).2 with hem
    have hdate1 : st1.date = d := trackUsage_date cfg d st a
    have hemnodup : em.Nodup :=
      hspec.1.nodup (by decide : THRESHOLDS.Nodup)
    have hkey : ∀ t : Int, t ∈ em → st.date = d → t ∉ st.alertsSent := by
      intro t ht hdeq
      have := hspec.2.1 t ht
      rwa [ensureToday_of_date hdeq] at this
    have step : (runTrack cfg st ((d, a) :: rest)).2 =
        em.map (fun t => (t, d)) ++ (runTrack cfg st1 rest).2 := by
      simp [runTrack]
    rw [step, ← List.append_assoc]
    apply ih st1 (acc ++ em.map (fun t => (t, d)))
    · rw [hdate1]
      exact hchain2
    · intro p hp
      rcases List.mem_append.mp hp with h1 | h1
      · exact le_trans (haccle p h1) (hdate1 ▸ hle)
      · rcases List.mem_map.mp h1 with ⟨t, _, rfl⟩
        simp [hdate1]
    · intro t ht
      rw [hdate1] at ht
      have hsent1 : st1.alertsSent = (ensureToday d st).alertsSent ++ em :=
        hspec.2.2
      rcases List.mem_append.mp ht with h1 | h1
      · have hd2 : d ≤ st.date := by
          have := haccle (t, d) h1
          simpa using this
        have hdeq : st.date = d := le_antisymm hle hd2
        have : t ∈ st.alertsSent := haccsent t (by rwa [hdeq])
        rw [hsent1, ensureToday_of_date hdeq]
        exact List.mem_append_left _ this
      · rcases List.mem_map.mp h1 with ⟨t2, ht2, heq⟩
        have : t2 = t := by
          simpa using congrArg Prod.fst heq
        subst this
        rw [hsent1]
        exact List.mem_append_right _ ht2
    · rw [List.nodup_append]
      refine ⟨hnodup, hemnodup.map ?_, ?_⟩
      · intro x y hxy
        simpa using congrArg Prod.fst hxy
      · intro p hp hpem
        rcases List.mem_map.mp hpem with ⟨t, htem, rfl⟩
        have hd2 : d ≤ st.date := by
          have := haccle (t, d) hp
          simpa using this
        have hdeq : st.date = d := le_antisymm hle hd2
        have h1 : t ∈ st.alertsSent := haccsent t (by rwa [hdeq])
        exact hkey t htem hdeq h1

/-- C4: `trackUsage` increments a chat's message counter if and only if the
call's `inputTokens` is greater than 0 (the count moves by the indicator of
`inputTokens > 0` and by nothing else), hence a phase-1 call `(i, 0)` with
`i > 0` followed by a phase-2 call `(0, o)` on the same chat increases that
chat's message count by exactly 1. -/
theorem claim_C4_two_phase_message_count (cfg : TrackerCfg) (d : String)
    (st : TrackerState) (cid : Option String) (i o : Int)
    (src aid : Option String) (c1 c2 : Option Rat)
    (hd : st.date = d) (hi : 0 < i) :
    (∀ a : TrackArgs,
      chatMessages (trackUsage cfg d st a).1 (chatKey a.chatId) =
        chatMessages st (chatKey a.chatId) +
          (if 0 < a.inputTokens then 1 else 0)) ∧
    chatMessages
        (trackUsage cfg d (trackUsage cfg d st ⟨cid, i, 0, src, aid, c1⟩).1
          ⟨cid, 0, o, src, aid, c2⟩).1 (chatKey cid) =
      chatMessages st (chatKey cid) + 1 := by
  constructor
  · intro a
    exact trackUsage_messages cfg d st a hd
  · have h1 := trackUsage_messages cfg d st ⟨cid, i, 0, src, aid, c1⟩ hd
    have hdate := trackUsage_date cfg d st ⟨cid, i, 0, src, aid, c1⟩
    have h2 := trackUsage_messages cfg d
      (trackUsage cfg d st ⟨cid, i, 0, src, aid, c1⟩).1
      ⟨cid, 0, o, src, aid, c2⟩ hdate
    simp only at h1 h2
    rw [h2, h1]
    simp [hi]

/-- C4 witness: concrete two-phase accounting run. -/
theorem claim_C4_witness :
    chatMessages
        (trackUsage ⟨0, false⟩ "2026-01-01"
          (trackUsage ⟨0, false⟩ "2026-01-01" (TrackerState.init "2026-01-01")
            ⟨some "100", 7, 0, none, none, none⟩).1
          ⟨some "100", 0, 5, none, none, none⟩).1 (chatKey (some "100")) =
      chatMessages (TrackerState.init "2026-01-01") (chatKey (some "100")) + 1 :=
  (claim_C4_two_phase_message_count ⟨0, false⟩ "2026-01-01"
    (TrackerState.init "2026-01-01") (some "100") 7 5 none none none none
    rfl (by decide)).2

/-- C5: when the day sequence is chronological (never revisits an earlier
day), the emitted `(threshold, day)` alert pairs over any sequence of
`trackUsage` calls contain no duplicates — each threshold fires at most once
per day — and the thresholds alerted within any single `trackUsage` call are
strictly ascending. -/
theorem claim_C5_budget_alerts (cfg : TrackerCfg) (st : TrackerState)
    (calls : List (String × TrackArgs))
    (hchain : List.Chain' (· ≤ ·) (st.date :: calls.map Prod.fst)) :
    ((runTrack cfg st calls).2).Nodup ∧
    ∀ (d : String) (st0 : TrackerState) (a : TrackArgs),
      List.Pairwise (· < ·) (trackUsage cfg d st0 a).2 := by
  constructor
  · have := runTrack_nodup_aux cfg calls st [] hchain (by simp) (by simp)
      List.nodup_nil
    simpa using this
  · intro d st0 a
    exact List.Pairwise.sublist (trackUsage_alert_spec cfg d st0 a).1
      (by decide)

/-- C5 witness: the S5 scenario — budget 1000, cumulative totals 300, 550,
800, 900, 1000 — fires `[25, 50, 75, 85, 95]` with no duplicate
`(threshold, day)` pair. -/
theorem claim_C5_witness :
    ((runTrack ⟨1000, true⟩ (TrackerState.init "2026-01-01")
        [("2026-01-01", ⟨some "100", 200, 100, none, none, none⟩),
         ("2026-01-01", ⟨some "100", 150, 100, none, none, none⟩),
         ("2026-01-01", ⟨some "100", 150, 100, none, none, none⟩),
         ("2026-01-01", ⟨some "100", 50, 50, none, none, none⟩),
         ("2026-01-01", ⟨some "100", 50, 50, none, none, none⟩)]).2).Nodup :=
  (claim_C5_budget_alerts ⟨1000, true⟩ (TrackerState.init "2026-01-01")
    [("2026-01-01", ⟨some "100", 200, 100, none, none, none⟩),
     ("2026-01-01", ⟨some "100", 150, 100, none, none, none⟩),
     ("2026-01-01", ⟨some "100", 150, 100, none, none, none⟩),
     ("2026-01-01", ⟨some "100", 50, 50, none, none, none⟩),
     ("2026-01-01", ⟨some "100", 50, 50, none, none, none⟩)]
    (by simp
        exact le_refl _)).1

/-! ### Cron budget gate (C6) -/

/-- C6: when a cron budget gate is configured (`gate > 0`) and the current
budget percentage is non-null and at or above the gate, `handleCronTrigger`
returns after logging the skip: the agent runner is not invoked, no memory
event is captured, and nothing is sent to the chat. -/
theorem claim_C6_cron_budget_gate (deps : CronDeps) (p : Rat)
    (hgate : 0 < deps.cronBudgetGatePct)
    (hpct : deps.getBudgetPct = some (some p))
    (hge : deps.cronBudgetGatePct ≤ p) :
    handleCronTrigger deps = ([], true) ∧
    CronEffect.runAgent ∉ (handleCronTrigger deps).1 ∧
    CronEffect.captureUser ∉ (handleCronTrigger deps).1 ∧
    CronEffect.captureAssistant ∉ (handleCronTrigger deps).1 ∧
    CronEffect.sendResponse ∉ (handleCronTrigger deps).1 := by
  have hmain : handleCronTrigger deps = ([], true) := by
    unfold handleCronTrigger
    rw [hpct]
    simp [hgate, hge]
  refine ⟨hmain, ?_, ?_, ?_, ?_⟩ <;> rw [hmain] <;> simp

/-- C6 witness: gate 90, budget percentage 95 — the S6 scenario. -/
theorem claim_C6_witness :
    handleCronTrigger
      { cronBudgetGatePct := 90, getBudgetPct := some (some 95),
        sendChatActionResult := Except.ok (), captureUserResult := Except.ok (),
        runAgentResult := Except.ok "done",
        captureAssistantResult := Except.ok (),
        sendResponseResult := Except.ok () } = ([], true) :=
  (claim_C6_cron_budget_gate _ 95 (by norm_num) rfl (by norm_num)).1

/-! ### Shell-quote round trip (C9) -/

theorem unqSingle_cons (c : Char) (rest : List Char) :
    unqSingle (c :: rest) =
      if c = squoteC then unqOutside rest
      else (unqSingle rest).map (fun r => c :: r) := by
  rw [unqSingle.eq_def]

theorem unqOutside_cons (c : Char) (rest : List Char) :
    unqOutside (c :: rest) =
      if c = squoteC then unqSingle rest
      else if c = dquoteC then unqDouble rest
      else if c = bslashC then
        (match rest with
        | [] => none
        | d :: ds => (unqOutside ds).map (fun r => d :: r))
      else (unqOutside rest).map (fun r => c :: r) := by
  rw [unqOutside.eq_def]

theorem unqOutside_nil : unqOutside [] = some [] := by
  rw [unqOutside.eq_def]

theorem unqSingle_shellQuoteBody (cs : List Char) :
    unqSingle (shellQuoteBody cs ++ [squoteC]) = some cs := by
  induction cs with
  | nil =>
    simp [shellQuoteBody, unqSingle_cons, unqOutside_nil]
  | cons c rest ih =>
    by_cases hc : c = squoteC
    · subst hc
      simp only [shellQuoteBody, eq_self_iff_true, ite_true, List.cons_append]
      rw [unqSingle_cons]
      simp only [if_pos rfl]
      rw [unqOutside_cons]
      simp only [if_neg (by decide : ¬ bslashC = squoteC),
        if_neg (by decide : ¬ bslashC = dquoteC), if_pos rfl]
      rw [unqOutside_cons]
      simp only [if_pos rfl]
      rw [ih]
      rfl
    · simp only [shellQuoteBody, if_neg hc, List.cons_append]
      rw [unqSingle_cons]
      simp only [if_neg hc]
      rw [ih]
      rfl

/-- C9: for every string `s`, `shellQuote(s)` survives one level of POSIX
command-string evaluation and yields `s` unchanged, including for strings
containing single quotes. -/
theorem claim_C9_shellQuote_roundtrip (s : String) :
    shellEval (shellQuote s) = some s := by
  unfold shellEval shellQuote
  rw [show (⟨squoteC :: (shellQuoteBody s.data ++ [squoteC])⟩ : String).data =
      squoteC :: (shellQuoteBody s.data ++ [squoteC]) from rfl]
  rw [unqOutside_cons]
  simp only [if_pos rfl]
  rw [unqSingle_shellQuoteBody]
  cases s
  rfl

/-! ### Codex stream parser (C8) -/

/-- C8: evaluating `parseCodexJsonOutput` on the exact stream from the
repository's own test "parseAgentOutput prefers final channel messages for
codex" — a commentary-channel message followed by a final-channel message.
The parser ignores the `channel` discriminator and returns both texts joined
by a newline, not the final-channel text alone; on a `thread.started` stream
it does extract the session id.  This settles the claim against the code: the
collection and session-id parts hold, the final-channel preference does
not. -/
theorem claim_C8_codex_parser_no_final_preference :
    parseCodexJsonOutput
        ("\x7b\"type\":\"item.completed\",\"item\":\x7b\"type\":\"message\",\"channel\":\"commentary\",\"text\":\"voy a hacer X\"\x7d\x7d\n\x7b\"type\":\"item.completed\",\"item\":\x7b\"type\":\"message\",\"channel\":\"final\",\"text\":\"hecho: resultado final\"\x7d\x7d") =
      { text := "voy a hacer X\nhecho: resultado final", threadId := none,
        sawJson := true } ∧
    "voy a hacer X\nhecho: resultado final" ≠ "hecho: resultado final" ∧
    parseCodexJsonOutput
        ("noise\n\x7b\"type\":\"thread.started\",\"thread_id\":\"thread-1\"\x7d\n\x7b\"type\":\"item.completed\",\"item\":\x7b\"type\":\"message\",\"text\":\"hi there\"\x7d\x7d") =
      { text := "hi there", threadId := some "thread-1", sawJson := true } := by
  refine ⟨by decide, by decide, by decide⟩

/-! ### Thread rotation (C1, C2) -/

/-- C1: a chat run rotates the thread if and only if a session id is already
present and at least one of the three limits fires — `rotationTurns > 0` with
the (incremented) turn count at or past it, `maxContextChars > 0` with the
accumulated context size at or past it, or `maxContextChars > 0` with no
in-memory context-size entry for the thread key (post-restart safety).  In
particular, with no session id present no rotation occurs. -/
theorem claim_C1_rotation_iff (cfg : RunnerCfg) (deps : RunnerDeps)
    (st : RunnerState) (chatId prompt : String) (opts : RunOptions) :
    (prepareRun cfg deps st chatId prompt opts).rotated = true ↔
      ((deps.resolveThreadId st.threads chatId opts.topicId
          (deps.resolveEffectiveAgentId chatId opts.topicId opts.agentId)).threadId.isSome = true ∧
        ((0 < cfg.threadRotationTurns ∧
            cfg.threadRotationTurns ≤
              (alookup st.threadTurns
                  (deps.resolveThreadId st.threads chatId opts.topicId
                    (deps.resolveEffectiveAgentId chatId opts.topicId opts.agentId)).threadKey).getD 0 + 1) ∨
         (0 < cfg.threadMaxContextChars ∧
            cfg.threadMaxContextChars ≤
              (alookup st.threadContextChars
                  (deps.resolveThreadId st.threads chatId opts.topicId
                    (deps.resolveEffectiveAgentId chatId opts.topicId opts.agentId)).threadKey).getD 0) ∨
         (0 < cfg.threadMaxContextChars ∧
            (alookup st.threadContextChars
                (deps.resolveThreadId st.threads chatId opts.topicId
                  (deps.resolveEffectiveAgentId chatId opts.topicId opts.agentId)).threadKey).isSome = false))) := by
  simp only [prepareRun, amem]
  simp only [Bool.or_eq_true, Bool.and_eq_true, decide_eq_true_eq,
    Bool.not_eq_true']
  constructor
  · rintro ((⟨⟨h1, h2⟩, h3⟩ | ⟨⟨h1, h2⟩, h3⟩) | ⟨⟨h1, h2⟩, h3⟩)
    · exact ⟨h2, Or.inl ⟨h1, h3⟩⟩
    · exact ⟨h2, Or.inr (Or.inl ⟨h1, h3⟩)⟩
    · exact ⟨h2, Or.inr (Or.inr ⟨h1, h3⟩)⟩
  · rintro ⟨hs, (⟨h1, h2⟩ | ⟨h1, h2⟩ | ⟨h1, h2⟩)⟩
    · exact Or.inl (Or.inl ⟨⟨h1, hs⟩, h2⟩)
    · exact Or.inl (Or.inr ⟨⟨h1, hs⟩, h2⟩)
    · exact Or.inr ⟨⟨h1, hs⟩, h2⟩

/-- C2: in a chat run in which rotation occurred, the rotation deletes the
thread-store entry for the thread key (clearing the session id), sets the
turn counter for the key to 1, clears the accumulated-context entry (its
effective value is zero), and the bootstrap prepended to that same run's
prompt is the compact variant. -/
theorem claim_C2_rotation_effects (cfg : RunnerCfg) (deps : RunnerDeps)
    (st : RunnerState) (chatId prompt : String) (opts : RunOptions)
    (hrot : (prepareRun cfg deps st chatId prompt opts).rotated = true) :
    alookup (prepareRun cfg deps st chatId prompt opts).postRotation.threads
        (prepareRun cfg deps st chatId prompt opts).threadKey = none ∧
    alookup (prepareRun cfg deps st chatId prompt opts).postRotation.threadTurns
        (prepareRun cfg deps st chatId prompt opts).threadKey = some 1 ∧
    alookup
        (prepareRun cfg deps st chatId prompt opts).postRotation.threadContextChars
        (prepareRun cfg deps st chatId prompt opts).threadKey = none ∧
    (prepareRun cfg deps st chatId prompt opts).bootstrapCompact = some true := by
  simp only [prepareRun] at hrot ⊢
  rw [hrot]
  simp [alookup_aerase_self, alookup_ainsert_self]

/-- C2 witness: turn-limit rotation at turn 3 of the `rotState` fixture. -/
theorem claim_C2_witness :
    (prepareRun rotCfg fakeDeps rotState "12345" "hola" emptyRunOptions).rotated
        = true ∧
    alookup
        (prepareRun rotCfg fakeDeps rotState "12345" "hola"
          emptyRunOptions).postRotation.threads
        (prepareRun rotCfg fakeDeps rotState "12345" "hola"
          emptyRunOptions).threadKey = none ∧
    alookup
        (prepareRun rotCfg fakeDeps rotState "12345" "hola"
          emptyRunOptions).postRotation.threadTurns
        (prepareRun rotCfg fakeDeps rotState "12345" "hola"
          emptyRunOptions).threadKey = some 1 ∧
    alookup
        (prepareRun rotCfg fakeDeps rotState "12345" "hola"
          emptyRunOptions).postRotation.threadContextChars
        (prepareRun rotCfg fakeDeps rotState "12345" "hola"
          emptyRunOptions).threadKey = none ∧
    (prepareRun rotCfg fakeDeps rotState "12345" "hola"
        emptyRunOptions).bootstrapCompact = some true :=
  ⟨by decide,
   claim_C2_rotation_effects rotCfg fakeDeps rotState "12345" "hola"
     emptyRunOptions (by decide)⟩

/-! ### Retrieval gate and cache (C7) -/

theorem getCachedRetrieval_cases (st : RunnerState) (k : String) :
    (alookup st.retrievalCache k = none ∧ getCachedRetrieval st k = (none, st)) ∨
    (∃ e, alookup st.retrievalCache k = some e ∧
      RETRIEVAL_CACHE_TTL_MS < st.now - e.ts ∧
      getCachedRetrieval st k =
        (none, { st with retrievalCache := aerase st.retrievalCache k })) ∨
    (∃ e, alookup st.retrievalCache k = some e ∧
      st.now - e.ts ≤ RETRIEVAL_CACHE_TTL_MS ∧
      getCachedRetrieval st k = (some e.value, st)) := by
  unfold getCachedRetrieval
  cases h : alookup st.retrievalCache k with
  | none => exact Or.inl ⟨rfl, rfl⟩
  | some e =>
    by_cases h2 : RETRIEVAL_CACHE_TTL_MS < st.now - e.ts
    · exact Or.inr (Or.inl ⟨e, rfl, h2, by simp [h2]⟩)
    · exact Or.inr (Or.inr ⟨e, rfl, le_of_not_lt h2, by simp [h2]⟩)

theorem setCachedRetrieval_now (st : RunnerState) (k v : String) :
    (setCachedRetrieval st k v).now = st.now := rfl

theorem alookup_setCachedRetrieval (st : RunnerState) (k v : String) :
    alookup (setCachedRetrieval st k v).retrievalCache k =
      some ⟨st.now, v⟩ := by
  unfold setCachedRetrieval
  by_cases h : 100 < (ainsert st.retrievalCache k ⟨st.now, v⟩).length
  · simp only [if_pos h]
    show alookup
      (List.filter _ ((k, (⟨st.now, v⟩ : CacheEntry)) :: aerase st.retrievalCache k)) k = _
    rw [List.filter_cons]
    simp [alookup, Nat.sub_self, RETRIEVAL_CACHE_TTL_MS]
  · simp only [if_neg h]
    exact alookup_ainsert_self _ _ _

/-- C7 support: a fresh cache hit answers from the cache without touching the
retriever or the state. -/
theorem retrievalLookup_of_fresh (cfg : RunnerCfg) (deps : RunnerDeps)
    (st : RunnerState) (chatId prompt : String) (topicId : Option String)
    (aid : String) (e : CacheEntry)
    (he : alookup st.retrievalCache (retrievalCacheKey chatId topicId prompt) = some e)
    (hf : st.now - e.ts ≤ RETRIEVAL_CACHE_TTL_MS) :
    retrievalLookup cfg deps st chatId prompt topicId aid = (st, e.value, false) := by
  rcases getCachedRetrieval_cases st (retrievalCacheKey chatId topicId prompt) with
    ⟨h1, _⟩ | ⟨e2, h1, h2, _⟩ | ⟨e2, h1, _, h3⟩
  · rw [he] at h1
    exact absurd h1 (by simp)
  · rw [he] at h1
    injection h1 with h1
    subst h1
    omega
  · rw [he] at h1
    injection h1 with h1
    subst h1
    simp only [retrievalLookup, h3]

/-- C7 support: a miss queries the retriever and caches the result (the empty
string included) under the cache key with the current clock. -/
theorem retrievalLookup_of_miss (cfg : RunnerCfg) (deps : RunnerDeps)
    (st : RunnerState) (chatId prompt : String) (topicId : Option String)
    (aid : String)
    (he : alookup st.retrievalCache (retrievalCacheKey chatId topicId prompt) = none) :
    (retrievalLookup cfg deps st chatId prompt topicId aid).2.2 = true ∧
    (retrievalLookup cfg deps st chatId prompt topicId aid).2.1 =
      deps.buildMemoryRetrievalContext
        ⟨prompt, chatId, topicId, aid, cfg.memoryRetrievalLimit⟩ ∧
    alookup (retrievalLookup cfg deps st chatId prompt topicId aid).1.retrievalCache
        (retrievalCacheKey chatId topicId prompt) =
      some ⟨st.now, deps.buildMemoryRetrievalContext
        ⟨prompt, chatId, topicId, aid, cfg.memoryRetrievalLimit⟩⟩ ∧
    (retrievalLookup cfg deps st chatId prompt topicId aid).1.now = st.now := by
  rcases getCachedRetrieval_cases st (retrievalCacheKey chatId topicId prompt) with
    ⟨h1, h2⟩ | ⟨e2, h1, _, _⟩ | ⟨e2, h1, _, _⟩
  · simp only [retrievalLookup, h2]
    exact ⟨by trivial, by trivial, alookup_setCachedRetrieval _ _ _,
      setCachedRetrieval_now _ _ _⟩
  · rw [he] at h1
    exact absurd h1 (by simp)
  · rw [he] at h1
    exact absurd h1 (by simp)

theorem retrievalLookup_now (cfg : RunnerCfg) (deps : RunnerDeps)
    (st : RunnerState) (chatId prompt : String) (topicId : Option String)
    (aid : String) :
    (retrievalLookup cfg deps st chatId prompt topicId aid).1.now = st.now := by
  rcases getCachedRetrieval_cases st (retrievalCacheKey chatId topicId prompt) with
    ⟨_, h2⟩ | ⟨e2, _, _, h2⟩ | ⟨e2, _, _, h2⟩ <;>
    simp only [retrievalLookup, h2] <;> rfl

/-- C7 support: after any retrieval lookup the cache holds a fresh entry for
the key. -/
theorem retrievalLookup_fresh_after (cfg : RunnerCfg) (deps : RunnerDeps)
    (st : RunnerState) (chatId prompt : String) (topicId : Option String)
    (aid : String) :
    ∃ e, alookup
        (retrievalLookup cfg deps st chatId prompt topicId aid).1.retrievalCache
        (retrievalCacheKey chatId topicId prompt) = some e ∧
      (retrievalLookup cfg deps st chatId prompt topicId aid).1.now - e.ts ≤
        RETRIEVAL_CACHE_TTL_MS := by
  rcases getCachedRetrieval_cases st (retrievalCacheKey chatId topicId prompt) with
    ⟨h1, h2⟩ | ⟨e2, h1, _, h2⟩ | ⟨e2, h1, hf, h2⟩ <;>
    simp only [retrievalLookup, h2]
  · exact ⟨_, alookup_setCachedRetrieval _ _ _, by
      rw [setCachedRetrieval_now]
      simp⟩
  · exact ⟨_, alookup_setCachedRetrieval _ _ _, by
      rw [setCachedRetrieval_now]
      simp⟩
  · exact ⟨e2, h1, hf⟩

/-- C7 (amended): the retrieval path is taken iff the **trimmed** prompt has
length at least 15 (interior whitespace counts, unlike the claim's
"non-whitespace characters" phrasing); a qualifying prompt goes through the
cache keyed by `(chatId, topicId || '', trimmedPrompt[:200])` with the 60
second time-to-live; a fresh hit suppresses the retriever; a miss queries it
and caches the result (the empty string included, acting as a sentinel), so
an immediately repeated lookup never queries the retriever again. -/
theorem claim_C7_retrieval_gate_amended (cfg : RunnerCfg) (deps : RunnerDeps)
    (st : RunnerState) (chatId prompt : String) (opts : RunOptions) :
    ((prepareRun cfg deps st chatId prompt opts).retrievalConsulted
        = decide (15 ≤ jsLen (jsTrim prompt))) ∧
    (¬ 15 ≤ jsLen (jsTrim prompt) →
      (prepareRun cfg deps st chatId prompt opts).retrieverQueried = false) ∧
    (15 ≤ jsLen (jsTrim prompt) →
      (prepareRun cfg deps st chatId prompt opts).retrieverQueried =
        (retrievalLookup cfg deps
          (prepareRun cfg deps st chatId prompt opts).postRotation chatId prompt
          opts.topicId
          (prepareRun cfg deps st chatId prompt opts).effectiveAgentId).2.2) ∧
    (∀ (st0 : RunnerState) (aid : String) (e : CacheEntry),
      alookup st0.retrievalCache (retrievalCacheKey chatId opts.topicId prompt)
          = some e →
      st0.now - e.ts ≤ RETRIEVAL_CACHE_TTL_MS →
      retrievalLookup cfg deps st0 chatId prompt opts.topicId aid =
        (st0, e.value, false)) ∧
    (∀ (st0 : RunnerState) (aid : String),
      alookup st0.retrievalCache (retrievalCacheKey chatId opts.topicId prompt)
          = none →
      (retrievalLookup cfg deps st0 chatId prompt opts.topicId aid).2.2 = true ∧
      alookup
          (retrievalLookup cfg deps st0 chatId prompt opts.topicId
            aid).1.retrievalCache
          (retrievalCacheKey chatId opts.topicId prompt) =
        some ⟨st0.now, deps.buildMemoryRetrievalContext
          ⟨prompt, chatId, opts.topicId, aid, cfg.memoryRetrievalLimit⟩⟩) ∧
    (∀ (st0 : RunnerState) (aid : String),
      (retrievalLookup cfg deps
        (retrievalLookup cfg deps st0 chatId prompt opts.topicId aid).1 chatId
        prompt opts.topicId aid).2.2 = false) := by
  refine ⟨rfl, ?_, ?_, ?_, ?_, ?_⟩
  · intro h
    have hd : decide (15 ≤ jsLen (jsTrim prompt)) = false := by simp [h]
    simp [prepareRun, hd]
  · intro h
    have hd : decide (15 ≤ jsLen (jsTrim prompt)) = true := by simp [h]
    simp [prepareRun, hd]
  · intro st0 aid e he hf
    exact retrievalLookup_of_fresh cfg deps st0 chatId prompt opts.topicId aid e he hf
  · intro st0 aid he
    have h := retrievalLookup_of_miss cfg deps st0 chatId prompt opts.topicId aid he
    exact ⟨h.1, h.2.2.1⟩
  · intro st0 aid
    obtain ⟨e, he, hf⟩ :=
      retrievalLookup_fresh_after cfg deps st0 chatId prompt opts.topicId aid
    rw [retrievalLookup_of_fresh cfg deps _ chatId prompt opts.topicId aid e he hf]

/-- C7 witness: an empty cache is queried once and then suppresses the
re-query on the immediately following identical lookup. -/
theorem claim_C7_witness :
    (retrievalLookup rotCfg fakeDeps
        ⟨[], [], [], [], 0⟩ "12345" "cuentame mas sobre el proyecto" none
        "fake").2.2 = true ∧
    (retrievalLookup rotCfg fakeDeps
        (retrievalLookup rotCfg fakeDeps ⟨[], [], [], [], 0⟩ "12345"
          "cuentame mas sobre el proyecto" none "fake").1 "12345"
        "cuentame mas sobre el proyecto" none "fake").2.2 = false :=
  ⟨((claim_C7_retrieval_gate_amended rotCfg fakeDeps ⟨[], [], [], [], 0⟩ "12345"
      "cuentame mas sobre el proyecto" emptyRunOptions).2.2.2.2.1
      ⟨[], [], [], [], 0⟩ "fake" (by decide)).1,
   (claim_C7_retrieval_gate_amended rotCfg fakeDeps ⟨[], [], [], [], 0⟩ "12345"
      "cuentame mas sobre el proyecto" emptyRunOptions).2.2.2.2.2
      ⟨[], [], [], [], 0⟩ "fake"⟩

/-- C7 counterexample to the claim as stated: the prompt made of the letter a,
thirteen spaces and the letter b has only 2 non-whitespace characters, yet
its trimmed length is 15, so the run consults the retriever — refuting "the
memory retriever is consulted only if the prompt has at least 15
non-whitespace characters". -/
theorem claim_C7_counterexample :
    nonWhitespaceCount "a             b" < 15 ∧
    (prepareRun rotCfg fakeDeps ⟨[], [], [], [], 0⟩ "12345" "a             b"
        emptyRunOptions).retrievalConsulted = true ∧
    (prepareRun rotCfg fakeDeps ⟨[], [], [], [], 0⟩ "12345" "a             b"
        emptyRunOptions).retrieverQueried = true := by
  refine ⟨by decide, by decide, by decide⟩

/-! ### Stale-session recovery (C3) -/

theorem staleCheck_iff (tid : Option String) (parsed : ParsedOutput)
    (output : String) (execErr : Option ExecErr) :
    staleCheck tid parsed output execErr = true ↔
      (tid.isSome = true ∧ parsed.sawJson = false ∧
        staleMatch (staleText parsed output execErr) = true) := by
  simp [staleCheck, Bool.and_eq_true, Bool.not_eq_true', and_assoc]

/-- C3: a chat run performs the recovery re-execution iff the session id was
in use, the parse saw no JSON envelope, and the concatenated parsed text, raw
output and stderr matches a stale-session phrase; the single recovery clears
the thread-store entry and both counters for the thread key, rebuilds the
prompt as a new thread (compact bootstrap, retrieval block re-run) and
re-executes without a session id; at most one recovery happens per run
(exactly two agent invocations when it does), and a failing retry — like a
failing first attempt — surfaces as a normal error to the caller. -/
theorem claim_C3_stale_session_recovery (cfg : RunnerCfg) (deps : RunnerDeps)
    (execs : Nat → ExecOutcome) (st : RunnerState) (chatId prompt : String)
    (opts : RunOptions) :
    (∀ e, execAttempt (execs 0) = Except.error e →
      (runAgentForChat cfg deps execs st chatId prompt opts).2.1.retry = none ∧
      (runAgentForChat cfg deps execs st chatId prompt opts).2.2 =
        Except.error e) ∧
    (∀ out0 err0, execAttempt (execs 0) = Except.ok (out0, err0) →
      (runAgentForChat cfg deps execs st chatId prompt opts).2.1.staleDetected =
        staleCheck (prepareRun cfg deps st chatId prompt opts).threadId
          ((deps.getAgent
            (prepareRun cfg deps st chatId prompt opts).effectiveAgentId).parseOutput
              out0) out0 err0 ∧
      (staleCheck (prepareRun cfg deps st chatId prompt opts).threadId
          ((deps.getAgent
            (prepareRun cfg deps st chatId prompt opts).effectiveAgentId).parseOutput
              out0) out0 err0 = true ↔
        ((prepareRun cfg deps st chatId prompt opts).threadId.isSome = true ∧
          ((deps.getAgent
            (prepareRun cfg deps st chatId prompt opts).effectiveAgentId).parseOutput
              out0).sawJson = false ∧
          staleMatch (staleText
            ((deps.getAgent
              (prepareRun cfg deps st chatId prompt opts).effectiveAgentId).parseOutput
                out0) out0 err0) = true)) ∧
      (runAgentForChat cfg deps execs st chatId prompt opts).2.1.retry =
        (if staleCheck (prepareRun cfg deps st chatId prompt opts).threadId
            ((deps.getAgent
              (prepareRun cfg deps st chatId prompt opts).effectiveAgentId).parseOutput
                out0) out0 err0 = true then
          some (prepareRetry cfg deps
            (prepareRun cfg deps st chatId prompt opts).st1 chatId prompt opts
            (prepareRun cfg deps st chatId prompt opts).threadKey
            (prepareRun cfg deps st chatId prompt opts).effectiveAgentId)
         else none) ∧
      (runAgentForChat cfg deps execs st chatId prompt opts).2.1.agentExecs =
        (if staleCheck (prepareRun cfg deps st chatId prompt opts).threadId
            ((deps.getAgent
              (prepareRun cfg deps st chatId prompt opts).effectiveAgentId).parseOutput
                out0) out0 err0 = true then 2 else 1) ∧
      (staleCheck (prepareRun cfg deps st chatId prompt opts).threadId
          ((deps.getAgent
            (prepareRun cfg deps st chatId prompt opts).effectiveAgentId).parseOutput
              out0) out0 err0 = true →
        ∀ e2, execAttempt (execs 1) = Except.error e2 →
          (runAgentForChat cfg deps execs st chatId prompt opts).2.2 =
            Except.error e2)) ∧
    (∀ (st0 : RunnerState) (tk aid : String),
      alookup (prepareRetry cfg deps st0 chatId prompt opts tk
          aid).postClear.threads tk = none ∧
      alookup (prepareRetry cfg deps st0 chatId prompt opts tk
          aid).postClear.threadTurns tk = some 1 ∧
      alookup (prepareRetry cfg deps st0 chatId prompt opts tk
          aid).postClear.threadContextChars tk = none ∧
      (prepareRetry cfg deps st0 chatId prompt opts tk aid).bootstrapCompact =
        true ∧
      (prepareRetry cfg deps st0 chatId prompt opts tk aid).buildArgs.threadId =
        none ∧
      (prepareRetry cfg deps st0 chatId prompt opts tk
          aid).buildArgs.threadIdExpression = none ∧
      (prepareRetry cfg deps st0 chatId prompt opts tk aid).retrievalConsulted =
        decide (15 ≤ jsLen (jsTrim prompt))) := by
  refine ⟨?_, ?_, ?_⟩
  · intro e he
    simp [runAgentForChat, he]
  · intro out0 err0 h0
    refine ⟨?_, staleCheck_iff _ _ _ _, ?_, ?_, ?_⟩
    · by_cases hsc : staleCheck (prepareRun cfg deps st chatId prompt opts).threadId
        ((deps.getAgent
          (prepareRun cfg deps st chatId prompt opts).effectiveAgentId).parseOutput
            out0) out0 err0 = true
      · cases h1 : execAttempt (execs 1) <;> simp [runAgentForChat, h0, hsc, h1]
      · have hsc2 : staleCheck (prepareRun cfg deps st chatId prompt opts).threadId
          ((deps.getAgent
            (prepareRun cfg deps st chatId prompt opts).effectiveAgentId).parseOutput
              out0) out0 err0 = false := by
          simpa using hsc
        simp [runAgentForChat, h0, hsc2]
    · by_cases hsc : staleCheck (prepareRun cfg deps st chatId prompt opts).threadId
        ((deps.getAgent
          (prepareRun cfg deps st chatId prompt opts).effectiveAgentId).parseOutput
            out0) out0 err0 = true
      · cases h1 : execAttempt (execs 1) <;> simp [runAgentForChat, h0, hsc, h1]
      · have hsc2 : staleCheck (prepareRun cfg deps st chatId prompt opts).threadId
          ((deps.getAgent
            (prepareRun cfg deps st chatId prompt opts).effectiveAgentId).parseOutput
              out0) out0 err0 = false := by
          simpa using hsc
        simp [runAgentForChat, h0, hsc2]
    · by_cases hsc : staleCheck (prepareRun cfg deps st chatId prompt opts).threadId
        ((deps.getAgent
          (prepareRun cfg deps st chatId prompt opts).effectiveAgentId).parseOutput
            out0) out0 err0 = true
      · cases h1 : execAttempt (execs 1) <;> simp [runAgentForChat, h0, hsc, h1]
      · have hsc2 : staleCheck (prepareRun cfg deps st chatId prompt opts).threadId
          ((deps.getAgent
            (prepareRun cfg deps st chatId prompt opts).effectiveAgentId).parseOutput
              out0) out0 err0 = false := by
          simpa using hsc
        simp [runAgentForChat, h0, hsc2]
    · intro hsc e2 he2
      simp [runAgentForChat, h0, hsc, he2]
  · intro st0 tk aid
    refine ⟨?_, ?_, ?_, rfl, rfl, rfl, rfl⟩
    · show alookup (aerase st0.threads tk) tk = none
      exact alookup_aerase_self _ _
    · show alookup (ainsert st0.threadTurns tk 1) tk = some 1
      exact alookup_ainsert_self _ _ _
    · show alookup (aerase st0.threadContextChars tk) tk = none
      exact alookup_aerase_self _ _

/-- C3 witness: the S4 scenario — session `t-1` live, first attempt answers
with the stale-session error line and no JSON, the retry succeeds. -/
theorem claim_C3_witness :
    execAttempt (staleExecs 0) =
      Except.ok ("Error: no conversation found with session id t-1", none) ∧
    (runAgentForChat noRotCfg fakeDeps staleExecs staleState "12345" "hola"
        emptyRunOptions).2.1.staleDetected = true ∧
    (runAgentForChat noRotCfg fakeDeps staleExecs staleState "12345" "hola"
        emptyRunOptions).2.1.agentExecs = 2 := by
  have h := (claim_C3_stale_session_recovery noRotCfg fakeDeps staleExecs
    staleState "12345" "hola" emptyRunOptions).2.1
    "Error: no conversation found with session id t-1" none rfl
  exact ⟨rfl, h.1.trans (by decide), h.2.2.2.1.trans (by decide)⟩

/-! ### Background task chains (C10) -/

theorem updTask_eq (f : Nat → Option BgTask) (i : Nat) (t : BgTask) :
    updTask f i t i = some t := by
  simp [updTask]

theorem updTask_ne (f : Nat → Option BgTask) (i : Nat) (t : BgTask) {j : Nat}
    (h : j ≠ i) : updTask f i t j = f j := by
  simp [updTask, h]

theorem bg_task_lt {s : BgState} (h : BgInv s) {i : Nat} {t : BgTask}
    (ht : s.task i = some t) : i < s.nextId := by
  by_contra hc
  push_neg at hc
  rw [h.bound i hc] at ht
  exact Option.noConfusion ht

theorem bgInv_init : BgInv bgInit := by
  refine ⟨?_, ?_, ?_, ?_, ?_, ?_⟩
  · intro i _
    rfl
  · intro i j ti tj _ hti
    exact absurd hti (by simp [bgInit])
  · intro k i hk
    exact absurd hk (by simp [bgInit, alookup])
  · intro k _ i t ht
    exact absurd ht (by simp [bgInit])
  · intro j t p ht
    exact absurd ht (by simp [bgInit])
  · intro j t ht
    exact absurd ht (by simp [bgInit])

theorem bgInv_dispatch {s : BgState} (h : BgInv s) (k : String) :
    BgInv ⟨s.nextId + 1,
      updTask s.task s.nextId
        ⟨k, TaskStatus.notStarted, false, alookup s.chains k, false⟩,
      ainsert s.chains k s.nextId⟩ := by
  set newT : BgTask :=
    ⟨k, TaskStatus.notStarted, false, alookup s.chains k, false⟩ with hnewT
  refine ⟨?_, ?_, ?_, ?_, ?_, ?_⟩
  · intro i hi
    dsimp only at hi ⊢
    have h1 : i ≠ s.nextId := by omega
    rw [updTask_ne _ _ _ h1]
    exact h.bound i (by omega)
  · intro i j ti tj hij hti htj hkey hstat
    dsimp only at hti htj
    rcases eq_or_ne j s.nextId with rfl | hj
    · rw [updTask_eq] at htj
      injection htj with htj
      rw [← htj] at hstat
      exact absurd rfl hstat
    · rw [updTask_ne _ _ _ hj] at htj
      have hjlt := bg_task_lt h htj
      rcases eq_or_ne i s.nextId with rfl | hi
      · omega
      · rw [updTask_ne _ _ _ hi] at hti
        exact h.order i j ti tj hij hti htj hkey hstat
  · intro k2 i hk2
    dsimp only at hk2 ⊢
    rcases eq_or_ne k2 k with rfl | hne
    · rw [alookup_ainsert_self] at hk2
      injection hk2 with hk2
      subst hk2
      refine ⟨newT, updTask_eq _ _ _, rfl, rfl, ?_⟩
      intro j u hj hu
      have hjne : j ≠ s.nextId := by omega
      rw [updTask_ne _ _ _ hjne] at hu
      have := bg_task_lt h hu
      omega
    · rw [alookup_ainsert_ne _ _ hne] at hk2
      obtain ⟨t, ht, hkey, hcl, hlater⟩ := h.chainSome k2 i hk2
      have hilt := bg_task_lt h ht
      have hine : i ≠ s.nextId := by omega
      refine ⟨t, by rw [updTask_ne _ _ _ hine]; exact ht, hkey, hcl, ?_⟩
      intro j u hj hu
      rcases eq_or_ne j s.nextId with rfl | hjne
      · rw [updTask_eq] at hu
        injection hu with hu
        rw [← hu]
        exact Ne.symm hne
      · rw [updTask_ne _ _ _ hjne] at hu
        exact hlater j u hj hu
  · intro k2 hk2 i t ht hkey
    dsimp only at hk2 ht
    have hne : k2 ≠ k := by
      intro hcontra
      subst hcontra
      rw [alookup_ainsert_self] at hk2
      exact Option.noConfusion hk2
    rw [alookup_ainsert_ne _ _ hne] at hk2
    rcases eq_or_ne i s.nextId with rfl | hi
    · rw [updTask_eq] at ht
      injection ht with ht
      rw [← ht] at hkey
      exact absurd hkey.symm hne
    · rw [updTask_ne _ _ _ hi] at ht
      exact h.chainNone k2 hk2 i t ht hkey
  · intro j t p ht hp
    dsimp only at ht ⊢
    rcases eq_or_ne j s.nextId with rfl | hj
    · rw [updTask_eq] at ht
      injection ht with ht
      subst ht
      obtain ⟨u, hu, ukey, _, hlater⟩ := h.chainSome k p hp
      have hplt := bg_task_lt h hu
      have hpne : p ≠ s.nextId := by omega
      refine ⟨hplt, ⟨u, by rw [updTask_ne _ _ _ hpne]; exact hu, ukey⟩, ?_⟩
      intro m v hpm hmj hv
      rcases eq_or_ne m s.nextId with rfl | hm
      · omega
      · rw [updTask_ne _ _ _ hm] at hv
        exact hlater m v hpm hv
    · rw [updTask_ne _ _ _ hj] at ht
      have hjlt := bg_task_lt h ht
      obtain ⟨hpj, ⟨u, hu, ukey⟩, hbetween⟩ := h.predSome j t p ht hp
      have hplt := bg_task_lt h hu
      have hpne : p ≠ s.nextId := by omega
      refine ⟨hpj, ⟨u, by rw [updTask_ne _ _ _ hpne]; exact hu, ukey⟩, ?_⟩
      intro m v hpm hmj hv
      have hm : m ≠ s.nextId := by omega
      rw [updTask_ne _ _ _ hm] at hv
      exact hbetween m v hpm hmj hv
  · intro j t ht hp m v hmj hv hkey
    dsimp only at ht hv
    rcases eq_or_ne j s.nextId with rfl | hj
    · rw [updTask_eq] at ht
      injection ht with ht
      subst ht
      have hm : m ≠ s.nextId := by omega
      rw [updTask_ne _ _ _ hm] at hv
      exact h.chainNone k hp m v hv hkey
    · rw [updTask_ne _ _ _ hj] at ht
      have hjlt := bg_task_lt h ht
      have hm : m ≠ s.nextId := by omega
      rw [updTask_ne _ _ _ hm] at hv
      exact h.predNone j t ht hp m v hmj hv hkey

theorem bgInv_start {s : BgState} (h : BgInv s) (i : Nat) (t : BgTask)
    (ht : s.task i = some t) (hs0 : t.status = TaskStatus.notStarted)
    (hp : BgPredSettled s t.pred) :
    BgInv ⟨s.nextId, updTask s.task i { t with status := TaskStatus.running },
      s.chains⟩ := by
  refine ⟨?_, ?_, ?_, ?_, ?_, ?_⟩
  · intro j hj
    dsimp only at hj ⊢
    have hjne : j ≠ i := by
      intro hcontra
      subst hcontra
      have := bg_task_lt h ht
      omega
    rw [updTask_ne _ _ _ hjne]
    exact h.bound j hj
  · intro i2 j2 ti tj hij hti htj hkey hstat
    dsimp only at hti htj
    rcases eq_or_ne j2 i with rfl | hj2
    · rw [updTask_eq] at htj
      injection htj with htj
      subst htj
      have hi2 : i2 ≠ j2 := Nat.ne_of_lt hij
      rw [updTask_ne _ _ _ hi2] at hti
      cases hpred : t.pred with
      | none =>
        exact h.predNone j2 t ht hpred i2 ti hij hti (by simpa using hkey)
      | some p =>
        obtain ⟨hpj, ⟨u, hu, ukey⟩, hbetween⟩ := h.predSome j2 t p ht hpred
        rw [hpred] at hp
        obtain ⟨u2, hu2, hu2s⟩ := hp
        rw [hu] at hu2
        injection hu2 with hu2
        subst hu2
        rcases lt_trichotomy i2 p with h1 | rfl | h3
        · refine h.order i2 p ti u h1 hti hu ?_ ?_
          · rw [ukey]
            simpa using hkey
          · rw [hu2s]
            simp
        · rw [hti] at hu
          injection hu with hu
          rw [hu]
          exact hu2s
        · exact absurd (by simpa using hkey) (hbetween i2 ti h3 hij hti)
    · rw [updTask_ne _ _ _ hj2] at htj
      rcases eq_or_ne i2 i with rfl | hi2
      · rw [updTask_eq] at hti
        injection hti with hti
        subst hti
        have h2 := h.order i2 j2 t tj hij ht htj (by simpa using hkey) hstat
        rw [hs0] at h2
        exact TaskStatus.noConfusion h2
      · rw [updTask_ne _ _ _ hi2] at hti
        exact h.order i2 j2 ti tj hij hti htj hkey hstat
  · intro k2 i3 hk2
    dsimp only at hk2 ⊢
    obtain ⟨t3, ht3, hk3, hcl3, hlater⟩ := h.chainSome k2 i3 hk2
    rcases eq_or_ne i3 i with rfl | hi3
    · rw [ht] at ht3
      injection ht3 with ht3
      subst ht3
      refine ⟨{ t with status := TaskStatus.running }, updTask_eq _ _ _,
        by simpa using hk3, by simpa using hcl3, ?_⟩
      intro j u hj hu
      have hjne : j ≠ i3 := Nat.ne_of_gt hj
      rw [updTask_ne _ _ _ hjne] at hu
      exact hlater j u hj hu
    · refine ⟨t3, by rw [updTask_ne _ _ _ hi3]; exact ht3, hk3, hcl3, ?_⟩
      intro j u hj hu
      rcases eq_or_ne j i with rfl | hjne
      · rw [updTask_eq] at hu
        injection hu with hu
        rw [← hu]
        have := hlater j t hj ht
        simpa using this
      · rw [updTask_ne _ _ _ hjne] at hu
        exact hlater j u hj hu
  · intro k2 hk2 i3 t3 ht3 hk3
    dsimp only at hk2 ht3
    rcases eq_or_ne i3 i with rfl | hi3
    · rw [updTask_eq] at ht3
      injection ht3 with ht3
      subst ht3
      have h2 := h.chainNone k2 hk2 i3 t ht (by simpa using hk3)
      rw [hs0] at h2
      exact TaskStatus.noConfusion h2
    · rw [updTask_ne _ _ _ hi3] at ht3
      exact h.chainNone k2 hk2 i3 t3 ht3 hk3
  · intro j t3 p ht3 hpred
    dsimp only at ht3 ⊢
    rcases eq_or_ne j i with rfl | hj
    · rw [updTask_eq] at ht3
      injection ht3 with ht3
      subst ht3
      obtain ⟨hpj, ⟨u, hu, ukey⟩, hbetween⟩ :=
        h.predSome j t p ht (by simpa using hpred)
      have hpne : p ≠ j := Nat.ne_of_lt hpj
      refine ⟨hpj, ⟨u, by rw [updTask_ne _ _ _ hpne]; exact hu,
        by simpa using ukey⟩, ?_⟩
      intro m v hpm hmj hv
      have hmne : m ≠ j := Nat.ne_of_lt hmj
      rw [updTask_ne _ _ _ hmne] at hv
      exact fun hcontra => hbetween m v hpm hmj hv (by simpa using hcontra)
    · rw [updTask_ne _ _ _ hj] at ht3
      obtain ⟨hpj, ⟨u, hu, ukey⟩, hbetween⟩ := h.predSome j t3 p ht3 hpred
      refine ⟨hpj, ?_, ?_⟩
      · rcases eq_or_ne p i with rfl | hpne
        · rw [ht] at hu
          injection hu with hu
          subst hu
          exact ⟨{ t with status := TaskStatus.running }, updTask_eq _ _ _,
            by simpa using ukey⟩
        · exact ⟨u, by rw [updTask_ne _ _ _ hpne]; exact hu, ukey⟩
      · intro m v hpm hmj hv
        rcases eq_or_ne m i with rfl | hmne
        · rw [updTask_eq] at hv
          injection hv with hv
          rw [← hv]
          have := hbetween m t hpm hmj ht
          simpa using this
        · rw [updTask_ne _ _ _ hmne] at hv
          exact hbetween m v hpm hmj hv
  · intro j t3 ht3 hpred m v hmj hv hk3
    dsimp only at ht3 hv
    rcases eq_or_ne j i with rfl | hj
    · rw [updTask_eq] at ht3
      injection ht3 with ht3
      subst ht3
      have hmne : m ≠ j := Nat.ne_of_lt hmj
      rw [updTask_ne _ _ _ hmne] at hv
      exact h.predNone j t ht (by simpa using hpred) m v hmj hv
        (by simpa using hk3)
    · rw [updTask_ne _ _ _ hj] at ht3
      rcases eq_or_ne m i with rfl | hmne
      · rw [updTask_eq] at hv
        injection hv with hv
        subst hv
        have h2 := h.predNone j t3 ht3 hpred m t hmj ht (by simpa using hk3)
        rw [hs0] at h2
        exact TaskStatus.noConfusion h2
      · rw [updTask_ne _ _ _ hmne] at hv
        exact h.predNone j t3 ht3 hpred m v hmj hv hk3

theorem bgInv_settle {s : BgState} (h : BgInv s) (i : Nat) (t : BgTask)
    (b : Bool) (ht : s.task i = some t) (hs0 : t.status = TaskStatus.running) :
    BgInv ⟨s.nextId,
      updTask s.task i { t with status := TaskStatus.settled, failed := b },
      s.chains⟩ := by
  refine ⟨?_, ?_, ?_, ?_, ?_, ?_⟩
  · intro j hj
    dsimp only at hj ⊢
    have hjne : j ≠ i := by
      intro hcontra
      subst hcontra
      have := bg_task_lt h ht
      omega
    rw [updTask_ne _ _ _ hjne]
    exact h.bound j hj
  · intro i2 j2 ti tj hij hti htj hkey hstat
    dsimp only at hti htj
    rcases eq_or_ne i2 i with rfl | hi2
    · rw [updTask_eq] at hti
      injection hti with hti
      rw [← hti]
    · rw [updTask_ne _ _ _ hi2] at hti
      rcases eq_or_ne j2 i with rfl | hj2
      · rw [updTask_eq] at htj
        injection htj with htj
        refine h.order i2 j2 ti t hij hti ht ?_ ?_
        · rw [← htj] at hkey
          simpa using hkey
        · rw [hs0]
          simp
      · rw [updTask_ne _ _ _ hj2] at htj
        exact h.order i2 j2 ti tj hij hti htj hkey hstat
  · intro k2 i3 hk2
    dsimp only at hk2 ⊢
    obtain ⟨t3, ht3, hk3, hcl3, hlater⟩ := h.chainSome k2 i3 hk2
    rcases eq_or_ne i3 i with rfl | hi3
    · rw [ht] at ht3
      injection ht3 with ht3
      subst ht3
      refine ⟨{ t with status := TaskStatus.settled, failed := b },
        updTask_eq _ _ _, by simpa using hk3, by simpa using hcl3, ?_⟩
      intro j u hj hu
      have hjne : j ≠ i3 := Nat.ne_of_gt hj
      rw [updTask_ne _ _ _ hjne] at hu
      exact hlater j u hj hu
    · refine ⟨t3, by rw [updTask_ne _ _ _ hi3]; exact ht3, hk3, hcl3, ?_⟩
      intro j u hj hu
      rcases eq_or_ne j i with rfl | hjne
      · rw [updTask_eq] at hu
        injection hu with hu
        rw [← hu]
        have := hlater j t hj ht
        simpa using this
      · rw [updTask_ne _ _ _ hjne] at hu
        exact hlater j u hj hu
  · intro k2 hk2 i3 t3 ht3 hk3
    dsimp only at hk2 ht3
    rcases eq_or_ne i3 i with rfl | hi3
    · rw [updTask_eq] at ht3
      injection ht3 with ht3
      rw [← ht3]
    · rw [updTask_ne _ _ _ hi3] at ht3
      exact h.chainNone k2 hk2 i3 t3 ht3 hk3
  · intro j t3 p ht3 hpred
    dsimp only at ht3 ⊢
    rcases eq_or_ne j i with rfl | hj
    · rw [updTask_eq] at ht3
      injection ht3 with ht3
      subst ht3
      obtain ⟨hpj, ⟨u, hu, ukey⟩, hbetween⟩ :=
        h.predSome j t p ht (by simpa using hpred)
      have hpne : p ≠ j := Nat.ne_of_lt hpj
      refine ⟨hpj, ⟨u, by rw [updTask_ne _ _ _ hpne]; exact hu,
        by simpa using ukey⟩, ?_⟩
      intro m v hpm hmj hv
      have hmne : m ≠ j := Nat.ne_of_lt hmj
      rw [updTask_ne _ _ _ hmne] at hv
      exact fun hcontra => hbetween m v hpm hmj hv (by simpa using hcontra)
    · rw [updTask_ne _ _ _ hj] at ht3
      obtain ⟨hpj, ⟨u, hu, ukey⟩, hbetween⟩ := h.predSome j t3 p ht3 hpred
      refine ⟨hpj, ?_, ?_⟩
      · rcases eq_or_ne p i with rfl | hpne
        · rw [ht] at hu
          injection hu with hu
          subst hu
          exact ⟨{ t with status := TaskStatus.settled, failed := b },
            updTask_eq _ _ _, by simpa using ukey⟩
        · exact ⟨u, by rw [updTask_ne _ _ _ hpne]; exact hu, ukey⟩
      · intro m v hpm hmj hv
        rcases eq_or_ne m i with rfl | hmne
        · rw [updTask_eq] at hv
          injection hv with hv
          rw [← hv]
          have := hbetween m t hpm hmj ht
          simpa using this
        · rw [updTask_ne _ _ _ hmne] at hv
          exact hbetween m v hpm hmj hv
  · intro j t3 ht3 hpred m v hmj hv hk3
    dsimp only at ht3 hv
    rcases eq_or_ne m i with rfl | hmne
    · rw [updTask_eq] at hv
      injection hv with hv
      rw [← hv]
    · rw [updTask_ne _ _ _ hmne] at hv
      rcases eq_or_ne j i with rfl | hj
      · rw [updTask_eq] at ht3
        injection ht3 with ht3
        subst ht3
        exact h.predNone j t ht (by simpa using hpred) m v hmj hv
          (by simpa using hk3)
      · rw [updTask_ne _ _ _ hj] at ht3
        exact h.predNone j t3 ht3 hpred m v hmj hv hk3

theorem bgInv_cleanup {s : BgState} (h : BgInv s) (i : Nat) (t : BgTask)
    (ht : s.task i = some t) (hs0 : t.status = TaskStatus.settled) :
    BgInv ⟨s.nextId, updTask s.task i { t with cleaned := true },
      if alookup s.chains t.key = some i then aerase s.chains t.key
      else s.chains⟩ := by
  refine ⟨?_, ?_, ?_, ?_, ?_, ?_⟩
  · intro j hj
    dsimp only at hj ⊢
    have hjne : j ≠ i := by
      intro hcontra
      subst hcontra
      have := bg_task_lt h ht
      omega
    rw [updTask_ne _ _ _ hjne]
    exact h.bound j hj
  · intro i2 j2 ti tj hij hti htj hkey hstat
    dsimp only at hti htj
    rcases eq_or_ne i2 i with rfl | hi2
    · rw [updTask_eq] at hti
      injection hti with hti
      rw [← hti]
      exact hs0
    · rw [updTask_ne _ _ _ hi2] at hti
      rcases eq_or_ne j2 i with rfl | hj2
      · rw [updTask_eq] at htj
        injection htj with htj
        refine h.order i2 j2 ti t hij hti ht ?_ ?_
        · rw [← htj] at hkey
          simpa using hkey
        · rw [hs0]
          simp
      · rw [updTask_ne _ _ _ hj2] at htj
        exact h.order i2 j2 ti tj hij hti htj hkey hstat
  · intro k2 i3 hk2
    dsimp only at hk2 ⊢
    by_cases hcond : alookup s.chains t.key = some i
    · rw [if_pos hcond] at hk2
      have hne : k2 ≠ t.key := by
        intro hcontra
        subst hcontra
        rw [alookup_aerase_self] at hk2
        exact Option.noConfusion hk2
      rw [alookup_aerase_ne _ hne] at hk2
      obtain ⟨t3, ht3, hk3, hcl3, hlater⟩ := h.chainSome k2 i3 hk2
      have hi3 : i3 ≠ i := by
        intro hcontra
        subst hcontra
        rw [ht] at ht3
        injection ht3 with ht3
        subst ht3
        exact hne hk3.symm
      refine ⟨t3, by rw [updTask_ne _ _ _ hi3]; exact ht3, hk3, hcl3, ?_⟩
      intro j u hj hu
      rcases eq_or_ne j i with rfl | hjne
      · rw [updTask_eq] at hu
        injection hu with hu
        rw [← hu]
        have := hlater j t hj ht
        simpa using this
      · rw [updTask_ne _ _ _ hjne] at hu
        exact hlater j u hj hu
    · rw [if_neg hcond] at hk2
      obtain ⟨t3, ht3, hk3, hcl3, hlater⟩ := h.chainSome k2 i3 hk2
      have hi3 : i3 ≠ i := by
        intro hcontra
        subst hcontra
        rw [ht] at ht3
        injection ht3 with ht3
        subst ht3
        rw [hk3] at hcond
        exact hcond hk2
      refine ⟨t3, by rw [updTask_ne _ _ _ hi3]; exact ht3, hk3, hcl3, ?_⟩
      intro j u hj hu
      rcases eq_or_ne j i with rfl | hjne
      · rw [updTask_eq] at hu
        injection hu with hu
        rw [← hu]
        have := hlater j t hj ht
        simpa using this
      · rw [updTask_ne _ _ _ hjne] at hu
        exact hlater j u hj hu
  · intro k2 hk2 i3 t3 ht3 hk3
    dsimp only at hk2 ht3
    rcases eq_or_ne i3 i with rfl | hi3
    · rw [updTask_eq] at ht3
      injection ht3 with ht3
      rw [← ht3]
      exact hs0
    · rw [updTask_ne _ _ _ hi3] at ht3
      by_cases hcond : alookup s.chains t.key = some i
      · rw [if_pos hcond] at hk2
        rcases eq_or_ne k2 t.key with rfl | hne
        · obtain ⟨tt, htt, _, _, hlater⟩ := h.chainSome t.key i hcond
          rw [ht] at htt
          injection htt with htt
          subst htt
          rcases lt_or_gt_of_ne hi3 with hlt | hgt
          · refine h.order i3 i t3 t hlt ht3 ht hk3 ?_
            rw [hs0]
            simp
          · exact absurd hk3 (hlater i3 t3 hgt ht3)
        · rw [alookup_aerase_ne _ hne] at hk2
          exact h.chainNone k2 hk2 i3 t3 ht3 hk3
      · rw [if_neg hcond] at hk2
        exact h.chainNone k2 hk2 i3 t3 ht3 hk3
  · intro j t3 p ht3 hpred
    dsimp only at ht3 ⊢
    rcases eq_or_ne j i with rfl | hj
    · rw [updTask_eq] at ht3
      injection ht3 with ht3
      subst ht3
      obtain ⟨hpj, ⟨u, hu, ukey⟩, hbetween⟩ :=
        h.predSome j t p ht (by simpa using hpred)
      have hpne : p ≠ j := Nat.ne_of_lt hpj
      refine ⟨hpj, ⟨u, by rw [updTask_ne _ _ _ hpne]; exact hu,
        by simpa using ukey⟩, ?_⟩
      intro m v hpm hmj hv
      have hmne : m ≠ j := Nat.ne_of_lt hmj
      rw [updTask_ne _ _ _ hmne] at hv
      exact fun hcontra => hbetween m v hpm hmj hv (by simpa using hcontra)
    · rw [updTask_ne _ _ _ hj] at ht3
      obtain ⟨hpj, ⟨u, hu, ukey⟩, hbetween⟩ := h.predSome j t3 p ht3 hpred
      refine ⟨hpj, ?_, ?_⟩
      · rcases eq_or_ne p i with rfl | hpne
        · rw [ht] at hu
          injection hu with hu
          subst hu
          exact ⟨{ t with cleaned := true }, updTask_eq _ _ _,
            by simpa using ukey⟩
        · exact ⟨u, by rw [updTask_ne _ _ _ hpne]; exact hu, ukey⟩
      · intro m v hpm hmj hv
        rcases eq_or_ne m i with rfl | hmne
        · rw [updTask_eq] at hv
          injection hv with hv
          rw [← hv]
          have := hbetween m t hpm hmj ht
          simpa using this
        · rw [updTask_ne _ _ _ hmne] at hv
          exact hbetween m v hpm hmj hv
  · intro j t3 ht3 hpred m v hmj hv hk3
    dsimp only at ht3 hv
    rcases eq_or_ne m i with rfl | hmne
    · rw [updTask_eq] at hv
      injection hv with hv
      rw [← hv]
      exact hs0
    · rw [updTask_ne _ _ _ hmne] at hv
      rcases eq_or_ne j i with rfl | hj
      · rw [updTask_eq] at ht3
        injection ht3 with ht3
        subst ht3
        exact h.predNone j t ht (by simpa using hpred) m v hmj hv
          (by simpa using hk3)
      · rw [updTask_ne _ _ _ hj] at ht3
        exact h.predNone j t3 ht3 hpred m v hmj hv hk3

theorem bgStep_inv {s s2 : BgState} (h : BgInv s) (hs : BgStep s s2) :
    BgInv s2 := by
  cases hs with
  | dispatch k => exact bgInv_dispatch h k
  | start i t ht hstat hp => exact bgInv_start h i t ht hstat hp
  | settle i t b ht hstat => exact bgInv_settle h i t b ht hstat
  | cleanup i t ht hstat hc => exact bgInv_cleanup h i t ht hstat

theorem bgReachable_inv {s : BgState} (h : BgReachable s) : BgInv s := by
  induction h with
  | init => exact bgInv_init
  | step _ hs ih => exact bgStep_inv ih hs

/-- C10: in every reachable state of the background task manager, (1) for any
two tasks dispatched with the same thread key, the later one has begun its
work only if the earlier one's work has settled — and since a predecessor's
rejection also counts as settling (`prev.catch` swallows it), a failed task
never blocks later tasks on its key; and (2) once every task of a key has run
its `.finally` cleanup, the chain map holds no entry for that key, keeping
the map bounded. -/
theorem claim_C10_background_chain (s : BgState) (h : BgReachable s) :
    (∀ i j ti tj, i < j → s.task i = some ti → s.task j = some tj →
      ti.key = tj.key → tj.status ≠ TaskStatus.notStarted →
      ti.status = TaskStatus.settled) ∧
    (∀ k, (∀ i t, s.task i = some t → t.key = k → t.cleaned = true) →
      alookup s.chains k = none) := by
  have hinv := bgReachable_inv h
  refine ⟨hinv.order, ?_⟩
  intro k hall
  cases hk : alookup s.chains k with
  | none => rfl
  | some i =>
    obtain ⟨t, ht, hkey, hcl, _⟩ := hinv.chainSome k i hk
    rw [hall i t ht hkey] at hcl
    exact Bool.noConfusion hcl

/-- C10 witness: the five-step scenario — dispatch, start, settle with a
rejection, dispatch on the same key, start — reaches a state where the first
task has failed and the second is running, and the serialization theorem
applies to it. -/
theorem claim_C10_witness :
    bgW5.task 0 = some ⟨"k", TaskStatus.settled, true, none, false⟩ ∧
    bgW5.task 1 = some ⟨"k", TaskStatus.running, false, some 0, false⟩ ∧
    (⟨"k", TaskStatus.settled, true, none, false⟩ : BgTask).status =
      TaskStatus.settled := by
  have h1 : BgReachable bgW1 :=
    BgReachable.step BgReachable.init (BgStep.dispatch bgInit "k")
  have h2 : BgReachable bgW2 :=
    BgReachable.step h1
      (BgStep.start bgW1 0
        ⟨"k", TaskStatus.notStarted, false, alookup bgInit.chains "k", false⟩
        rfl rfl trivial)
  have h3 : BgReachable bgW3 :=
    BgReachable.step h2
      (BgStep.settle bgW2 0
        ⟨"k", TaskStatus.running, false, alookup bgInit.chains "k", false⟩
        true rfl rfl)
  have h4 : BgReachable bgW4 :=
    BgReachable.step h3 (BgStep.dispatch bgW3 "k")
  have h5 : BgReachable bgW5 :=
    BgReachable.step h4
      (BgStep.start bgW4 1
        ⟨"k", TaskStatus.notStarted, false, alookup bgW3.chains "k", false⟩
        rfl rfl ⟨⟨"k", TaskStatus.settled, true, alookup bgInit.chains "k",
          false⟩, rfl, rfl⟩)
  refine ⟨rfl, rfl, ?_⟩
  exact (claim_C10_background_chain bgW5 h5).1 0 1
    ⟨"k", TaskStatus.settled, true, none, false⟩
    ⟨"k", TaskStatus.running, false, some 0, false⟩ (by decide) rfl rfl rfl
    (by decide)

end Aipal
